import Mathlib

/-!
# Verification of the Respire air-quality backend (src/backend/app.py)

Shallow embedding conventions:
* Python floats are modelled by exact rationals `ℚ`; Python `int` by `ℤ`.
* Python's per-process string hash is an explicit parameter `h : String → ℤ`
  (Python randomises the seed per process, so no single concrete function is
  the hash; theorems quantify over `h`, concrete evaluations instantiate it).
* Python `a % n` on ints with `n > 0` agrees with Lean's `Int.emod`, the `%`
  of `ℤ` (both return a representative in `[0, n)`).
* The float square root `x ** 0.5` is a parameter `sqrtF : ℚ → ℚ`; theorems
  that depend on it assume only the properties of the real square root that
  they need, and concrete evaluations instantiate `sqrtF` so that every
  comparison made during that evaluation agrees with the real square root.
* Code that can raise an uncaught Python exception is modelled in `Except`.
-/

set_option maxRecDepth 20000

-- Core `Rat` arithmetic is `irreducible` by default; make it reducible again
-- so that concrete evaluations of the embedding reduce under `decide`.
unseal Rat.add Rat.mul Rat.sub Rat.inv Rat.ofScientific

namespace Respire

/-- Python `int(x)` applied to a float: truncation toward zero. -/
def pyInt (q : ℚ) : ℤ := if q < 0 then -⌊-q⌋ else ⌊q⌋

/-- A parsed JSON value, as returned by `resp.json()` in `get_air_quality`. -/
inductive JVal where
  | null
  | bool (b : Bool)
  | num (q : ℚ)
  | str (s : String)
  | arr (xs : List JVal)
  | obj (fields : List (String × JVal))

/-- Python truthiness of a JSON value (`if d.get("city")`, `aqi_value or 0`). -/
def jTruthy : JVal → Bool
  | .null => false
  | .bool b => b
  | .num q => decide (q ≠ 0)
  | .str s => decide (s ≠ "")
  | .arr xs => !xs.isEmpty
  | .obj fs => !fs.isEmpty

/-- Dictionary lookup `d.get(k)` on a value already known to be a dict (first binding wins,
as for a Python dict rendered as an association list). -/
def jGet (v : JVal) (k : String) : Option JVal :=
  match v with
  | .obj fs => (fs.find? (fun p => p.1 == k)).map (·.2)
  | _ => none

/-- The uncaught Python exceptions the embedded code can raise. -/
inductive PyErr where
  | attributeError
deriving DecidableEq

/-! ## Pollution estimation model (`estimate_pollution_by_location`, lines 1726-1802) -/

/-- One entry of the fixed `pollution_hotspots` table. -/
structure Hotspot where
  clat : ℚ
  clng : ℚ
  radius : ℚ
  pollution : ℚ
deriving DecidableEq

/-- The fixed `pollution_hotspots` table (lines 1740-1782). -/
def pollutionHotspots : List Hotspot :=
  [⟨39.9042, 116.4074, 15, 120⟩,   -- Beijing
   ⟨31.2304, 121.4737, 15, 130⟩,   -- Shanghai
   ⟨23.1291, 113.2644, 12, 110⟩,   -- Guangzhou
   ⟨30.5728, 104.0668, 12, 115⟩,   -- Chengdu
   ⟨22.5431, 114.0579, 12, 125⟩,   -- Shenzhen
   ⟨28.6139, 77.2090, 10, 150⟩,    -- Delhi
   ⟨19.0760, 72.8777, 10, 140⟩,    -- Mumbai
   ⟨22.5726, 88.3639, 10, 145⟩,    -- Kolkata
   ⟨13.0827, 80.2707, 10, 135⟩,    -- Chennai
   ⟨12.9716, 77.5946, 10, 130⟩,    -- Bengaluru
   ⟨29.3759, 47.9774, 8, 100⟩,     -- Kuwait City
   ⟨25.276987, 55.296249, 8, 95⟩,  -- Dubai
   ⟨21.4225, 39.8262, 8, 90⟩,      -- Jeddah
   ⟨31.9686, 99.9018, 8, 85⟩,      -- "Riyadh" (coordinates as in the source)
   ⟨26.8206, 30.8025, 8, 80⟩,      -- Cairo
   ⟨51.1657, 10.4515, 12, 70⟩,     -- Germany
   ⟨48.8566, 2.3522, 12, 65⟩,      -- Paris
   ⟨51.5074, -0.1278, 12, 60⟩,     -- London
   ⟨52.3791, 4.9009, 12, 55⟩,      -- Amsterdam
   ⟨41.9028, 12.4964, 12, 50⟩,     -- Rome
   ⟨34.0522, -118.2437, 8, 80⟩,    -- Los Angeles
   ⟨40.7128, -74.0060, 8, 75⟩,     -- New York City
   ⟨41.8781, -87.6298, 8, 70⟩,     -- Chicago
   ⟨29.7604, -95.3698, 8, 65⟩,     -- Houston
   ⟨37.7749, -122.4194, 8, 60⟩,    -- San Francisco
   ⟨-23.5505, -46.6333, 8, 85⟩,    -- Sao Paulo
   ⟨35.6762, 139.6503, 10, 75⟩,    -- Tokyo
   ⟨-33.8688, 151.2093, 8, 65⟩,    -- Sydney
   ⟨39.9042, 32.8597, 8, 60⟩,      -- Ankara
   ⟨55.7558, 37.6173, 8, 55⟩]      -- Moscow

/-- Embedding of `is_ocean_area` (lines 1804-1829).  Note the Pacific rule falls through to
the later rules when the North-America exclusion applies. -/
def isOceanArea (lat lng : ℚ) : Bool :=
  if (lng < -120 ∨ 150 < lng) ∧ ¬(50 < lat ∧ -130 < lng ∧ lng < -100) then true
  else if -60 < lng ∧ lng < 20 ∧ (50 < lat ∨ lat < -20) then true
  else if 60 < lng ∧ lng < 120 ∧ lat < -10 then true
  else if 70 < lat then true
  else if lat < -60 then true
  else false

/-- The body of the hotspot loop as a function of the computed distance:
`pollution * max(0, 1 - distance/radius)` when strictly inside the radius,
nothing otherwise (lines 1788-1796). -/
def hotspotContribution (hs : Hotspot) (d : ℚ) : ℚ :=
  if d < hs.radius then hs.pollution * max 0 (1 - d / hs.radius) else 0

/-- The body of the hotspot loop (lines 1788-1796), `acc` being the running
`max_pollution` and 20 the `base_pollution` of line 1730. -/
def hotspotStep (sqrtF : ℚ → ℚ) (lat lng : ℚ) (acc : ℚ) (hs : Hotspot) : ℚ :=
  let distance := sqrtF ((lat - hs.clat) ^ 2 + (lng - hs.clng) ^ 2)
  if distance < hs.radius then
    let influence := max 0 (1 - distance / hs.radius)
    max acc (20 + hs.pollution * influence)
  else acc

/-- Embedding of `estimate_pollution_by_location(lat, lng)` (lines 1726-1802).
`h` is the process string hash, `sqrtF` the float `** 0.5`. -/
def estimatePollutionByLocation (h : String → ℤ) (sqrtF : ℚ → ℚ) (lat lng : ℚ) : ℤ :=
  if isOceanArea lat lng then
    15 + h (toString lat ++ toString lng) % 10
  else if 65 < |lat| then
    10 + h (toString lat ++ toString lng) % 8
  else
    let maxPollution := pollutionHotspots.foldl (hotspotStep sqrtF lat lng) 20
    let variation : ℤ := h (toString lat ++ "_" ++ toString lng ++ "_var") % 20 - 10
    max 5 (min 200 (pyInt (maxPollution + (variation : ℚ))))

/-! ## Synthetic pollutant breakdown (`generate_estimated_pollutants`, lines 235-263) -/

/-- One entry of the fixed `pollutant_info` table. -/
structure PollutantSpec where
  code : String
  name : String
  units : String
  frac : ℚ
deriving DecidableEq

/-- The fixed `pollutant_info` table (lines 238-245); `frac` is `base_ratio`. -/
def pollutantInfo : List PollutantSpec :=
  [⟨"pm25", "PM2.5", "µg/m³", 0.4⟩,
   ⟨"pm10", "PM10", "µg/m³", 0.6⟩,
   ⟨"o3", "Ozone", "µg/m³", 0.3⟩,
   ⟨"no2", "NO₂", "µg/m³", 0.25⟩,
   ⟨"so2", "SO₂", "µg/m³", 0.15⟩,
   ⟨"co", "CO", "mg/m³", 0.1⟩]

/-- A pollutant record of the unified sample.  On the WAQI path `aqi` is
`None`; on the estimate path it is the synthetic per-pollutant AQI. -/
structure UPollutant where
  code : String
  displayName : String
  concValue : JVal
  concUnits : String
  aqi : Option ℤ

/-- Embedding of `generate_estimated_pollutants(base_aqi, lat, lng)` (lines 235-263). -/
def generateEstimatedPollutants (h : String → ℤ) (baseAqi : ℤ) (lat lng : ℚ) :
    List UPollutant :=
  pollutantInfo.map (fun info =>
    let variation : ℤ :=
      h (toString lat ++ "_" ++ toString lng ++ "_" ++ info.code) % 40 - 20
    let concentration : ℤ :=
      max 1 (pyInt ((baseAqi : ℚ) * info.frac * (1 + (variation : ℚ) / 100)))
    let pAqi : ℤ :=
      min 500 (max 0 (pyInt ((concentration : ℚ) * 0.8 +
        ((h (info.code ++ "_" ++ toString lat) % 20 : ℤ) : ℚ) - 10)))
    ⟨info.code, info.name, .num (concentration : ℚ), info.units, some pAqi⟩)

/-- Embedding of `get_dominant_pollutant(pollutants)` (lines 265-272): Python `max` with a
key returns the first element attaining the maximal key. -/
def getDominantPollutant (ps : List UPollutant) : Option String :=
  match ps with
  | [] => none
  | p :: rest =>
    some ((rest.foldl (fun best q =>
      if (best.aqi.getD 0) < (q.aqi.getD 0) then q else best) p).code)

/-! ## `get_air_quality` (lines 171-233) -/

/-- The unified sample dict built by `get_air_quality`. -/
structure Sample where
  provider : String
  raw : Option JVal
  aqi : JVal
  dominantPollutant : JVal
  pollutants : List UPollutant
  city : JVal
  time : JVal

/-- Outcome of the remote WAQI HTTP call, as seen by the `try` block:
either some `requests` exception (timeout, transport failure, bad HTTP
status, body that is not JSON — all caught by the `except` clause), or an
HTTP 200 whose body parsed to the given JSON value. -/
inductive RemoteResult where
  | requestError
  | response (body : JVal)

/-- The estimate-path sample (lines 216-233). -/
def estimateSample (h : String → ℤ) (sqrtF : ℚ → ℚ) (lat lng : ℚ) : Sample :=
  let estimatedAqi := estimatePollutionByLocation h sqrtF lat lng
  let estimatedPollutants := generateEstimatedPollutants h estimatedAqi lat lng
  let dom := getDominantPollutant estimatedPollutants
  { provider := "estimate"
    raw := none
    aqi := .num (estimatedAqi : ℚ)
    dominantPollutant := match dom with | some c => .str c | none => .null
    pollutants := estimatedPollutants
    city := .null
    time := .null }

/-- The WAQI-success branch (lines 186-210) run on `d = data["data"]`.
Raises `AttributeError` when `d["iaqi"]` is present but not a dict
(`iaqi.items()`), or when `d["city"]` is truthy but not a dict
(the expression `d.get("city", ...).get("name")`), exactly as the source would. -/
def waqiUnified (data : JVal) (dfs : List (String × JVal)) : Except PyErr Sample :=
  let d := JVal.obj dfs
  let overallAqi := (jGet d "aqi").getD .null
  let dominant := (jGet d "dominentpol").getD .null
  let iaqi := (jGet d "iaqi").getD (.obj [])
  match iaqi with
  | .obj items =>
    let pollutants := items.map (fun cv =>
      let code := cv.1
      let display := if code ≠ "" then code.toUpper else ""
      let v := match cv.2 with
        | .obj _ => (jGet cv.2 "v").getD .null
        | w => w
      (⟨code, display, v, "µg/m³", none⟩ : UPollutant))
    let cityField := (jGet d "city").getD .null
    if jTruthy cityField then
      match cityField with
      | .obj _ =>
        .ok { provider := "waqi"
              raw := some data
              aqi := overallAqi
              dominantPollutant := dominant
              pollutants := pollutants
              city := (jGet cityField "name").getD .null
              time := (jGet d "time").getD .null }
      | _ => .error .attributeError
    else
      .ok { provider := "waqi"
            raw := some data
            aqi := overallAqi
            dominantPollutant := dominant
            pollutants := pollutants
            city := .null
            time := (jGet d "time").getD .null }
  | _ => .error .attributeError

/-- Python equality `data.get("status") == "ok"`. -/
def statusOk : Option JVal → Bool
  | some (.str s) => s == "ok"
  | _ => false

/-- Embedding of `get_air_quality(lat, lng)` (lines 171-233).  `token` models the
`WAQI_API_TOKEN` configuration; `remote` the outcome of the HTTP call.
A JSON body that is not an object makes `data.get("status")` raise
`AttributeError`, which the `except requests.exceptions.RequestException`
clause does not catch. -/
def getAirQuality (h : String → ℤ) (sqrtF : ℚ → ℚ) (token : Option String)
    (remote : RemoteResult) (lat lng : ℚ) : Except PyErr Sample :=
  match token with
  | none => .ok (estimateSample h sqrtF lat lng)
  | some _ =>
    match remote with
    | .requestError => .ok (estimateSample h sqrtF lat lng)
    | .response data =>
      match data with
      | .obj _ =>
        -- `data.get("status") == "ok"`: Python `==` against a string literal
        if statusOk (jGet data "status") then
          match jGet data "data" with
          | some (JVal.obj dfs) => waqiUnified data dfs
          | _ => .ok (estimateSample h sqrtF lat lng)
        else .ok (estimateSample h sqrtF lat lng)
      | _ => .error .attributeError

/-! ## Heatmap generation (`get_heatmap_data`, lines 1575-1724) -/

/-- One heatmap point dict (`lat, lng, aqi, weight, estimated`). -/
structure HeatPoint where
  lat : ℚ
  lng : ℚ
  aqi : ℤ
  weight : ℤ
  estimated : Bool
deriving DecidableEq

/-- The `key_locations` anchor table of `get_limited_real_data`
(lines 1836-1842). -/
def keyLocations : List (ℚ × ℚ) :=
  [(40.7128, -74.0060),   -- NYC
   (34.0522, -118.2437),  -- LA
   (51.5074, -0.1278),    -- London
   (48.8566, 2.3522),     -- Paris
   (35.6762, 139.6503)]   -- Tokyo

/-- Python `int(x)` applied to the JSON `aqi` value: succeeds on numbers,
booleans and integer-shaped strings, raises otherwise (the raise is caught
by the inner `except` of `get_limited_real_data`, yielding 0). -/
def pyIntOfJVal : JVal → Option ℤ
  | .num q => some (pyInt q)
  | .bool b => some (if b then 1 else 0)
  | .str s => s.toInt?
  | _ => none

/-- Python test `x is not None`. -/
def jNotNone : JVal → Bool
  | .null => false
  | _ => true

/-- Embedding of `get_limited_real_data()` (lines 1831-1865).  `remote` gives the outcome
of the WAQI call per anchor coordinate; a bare `except: pass` skips anchors
whose lookup raised. -/
def getLimitedRealData (h : String → ℤ) (sqrtF : ℚ → ℚ) (token : Option String)
    (remote : ℚ → ℚ → RemoteResult) : List HeatPoint :=
  keyLocations.filterMap (fun loc =>
    match getAirQuality h sqrtF token (remote loc.1 loc.2) loc.1 loc.2 with
    | .error _ => none
    | .ok s =>
      if jNotNone s.aqi then
        let aqiValue := if jTruthy s.aqi then s.aqi else .num 0
        let n : ℤ := (pyIntOfJVal aqiValue).getD 0
        if 0 < n then some ⟨loc.1, loc.2, n, n, false⟩ else none
      else none)

/-- The normalized viewport of the bounded branch (lines 1597-1612):
swapped latitudes, and antimeridian-crossing detection `lng_min > lng_max`. -/
structure Bounds where
  latMin : ℚ
  latMax : ℚ
  lngMin : ℚ
  lngMax : ℚ
  crosses : Bool
deriving DecidableEq

/-- Lines 1597-1611: read `sw`/`ne`, normalize reversed latitudes and detect
antimeridian crossing. -/
def normBounds (sw ne : ℚ × ℚ) : Bounds :=
  let latMin := if ne.1 < sw.1 then ne.1 else sw.1
  let latMax := if ne.1 < sw.1 then sw.1 else ne.1
  ⟨latMin, latMax, sw.2, ne.2, decide (ne.2 < sw.2)⟩

/-- Embedding of `lng_span` (lines 1608-1612). -/
def lngSpanOf (b : Bounds) : ℚ :=
  if b.lngMin ≤ b.lngMax then b.lngMax - b.lngMin
  else (180 - b.lngMin) + (b.lngMax + 180)

/-- The values taken by the loop `x = start; while x <= stop: ...; x += step`
for `step > 0`, in order: `start + k*step` for every `k` with
`start + k*step ≤ stop` (exact-rational closed form of the float loop). -/
def qRange (start stop step : ℚ) : List ℚ :=
  if stop < start then []
  else (List.range ((⌊(stop - start) / step⌋).toNat + 1)).map
    (fun k : ℕ => start + (k : ℚ) * step)

/-- Latitude jitter of a grid node:
`max(-85, min(85, lat + (hash of "lat_lng" % 3 - 1)))`. -/
def gridLat (h : String → ℤ) (lat lng : ℚ) : ℚ :=
  max (-85) (min 85 (lat + ((h (toString lat ++ "_" ++ toString lng) % 3 - 1 : ℤ) : ℚ)))

/-- Longitude jitter of a grid node, before any wrap-around:
`lng + (hash of "lng_lat" % 4 - 2)`. -/
def gridLng0 (h : String → ℤ) (lat lng : ℚ) : ℚ :=
  lng + ((h (toString lng ++ "_" ++ toString lat) % 4 - 2 : ℤ) : ℚ)

/-- The two sequential wrap conditionals of the non-crossing branch
(lines 1628-1631). -/
def wrapLng (a : ℚ) : ℚ :=
  let a1 := if 180 < a then a - 360 else a
  if a1 < -180 then a1 + 360 else a1

/-- A grid point of the non-crossing branch (lines 1626-1640). -/
def gridPointNoCross (h : String → ℤ) (sqrtF : ℚ → ℚ) (lat lng : ℚ) : HeatPoint :=
  let aLat := gridLat h lat lng
  let aLng := wrapLng (gridLng0 h lat lng)
  let e := estimatePollutionByLocation h sqrtF aLat aLng
  ⟨aLat, aLng, e, e, true⟩

/-- A grid point of the antimeridian-crossing branch (lines 1644-1669):
note that here the jittered longitude is *not* wrapped or clamped. -/
def gridPointCross (h : String → ℤ) (sqrtF : ℚ → ℚ) (lat lng : ℚ) : HeatPoint :=
  let aLat := gridLat h lat lng
  let aLng := gridLng0 h lat lng
  let e := estimatePollutionByLocation h sqrtF aLat aLng
  ⟨aLat, aLng, e, e, true⟩

/-- The grid of the bounded branch (lines 1614-1671). -/
def boundedGrid (h : String → ℤ) (sqrtF : ℚ → ℚ) (b : Bounds) : List HeatPoint :=
  let targetCells : ℚ := 30
  let latStep := max 0.25 (min 8
    (if 0 < b.latMax - b.latMin then (b.latMax - b.latMin) / targetCells else 1))
  let lngStep := max 0.25 (min 8
    (if 0 < lngSpanOf b then lngSpanOf b / targetCells else 1))
  (qRange b.latMin b.latMax latStep).flatMap (fun lat =>
    if b.crosses then
      (qRange b.lngMin 180 lngStep).map (gridPointCross h sqrtF lat) ++
      (qRange (-180) b.lngMax lngStep).map (gridPointCross h sqrtF lat)
    else
      (qRange b.lngMin b.lngMax lngStep).map (gridPointNoCross h sqrtF lat))

/-- The `in_bounds` closure filtering anchor points (lines 1679-1686). -/
def inBounds (b : Bounds) (p : HeatPoint) : Bool :=
  if b.latMin ≤ p.lat ∧ p.lat ≤ b.latMax then
    if b.crosses then decide (b.lngMin ≤ p.lng ∨ p.lng ≤ b.lngMax)
    else decide (b.lngMin ≤ p.lng ∧ p.lng ≤ b.lngMax)
  else false

/-! ## Deterministic downsampling (lines 1712-1721) -/

/-- The sampling loop `while len(sampled) < max_points and int(i) < total`
(lines 1717-1720), with `fuel` the remaining capacity `max_points -
len(sampled)`.  The index test `int(i) < total` is the success of the list
lookup (`i` stays nonnegative: it starts at 0 and `step > 0` on the only
path that reaches the loop with positive fuel). -/
def sampleLoop (points : List α) (step : ℚ) : ℕ → ℚ → List α
  | 0, _ => []
  | fuel + 1, i =>
    match points[(⌊i⌋).toNat]? with
    | some p => p :: sampleLoop points step fuel (i + step)
    | none => []

/-- The downsampling step (lines 1712-1721).  `maxPoints` is the
client-supplied Python int.  When `total > max_points` and `max_points == 0`,
`float(total) / float(max_points)` raises `ZeroDivisionError` (modelled as
`none`); a negative `max_points` makes the loop guard
`len(sampled) < max_points` fail immediately, giving `[]`. -/
def downsample (points : List α) (maxPoints : ℤ) : Option (List α) :=
  if maxPoints < (points.length : ℤ) then
    if maxPoints = 0 then none
    else some (sampleLoop points ((points.length : ℚ) / (maxPoints : ℚ)) maxPoints.toNat 0)
  else some points

/-- The bounded branch of the `/api/heatmap-data` route (lines 1594-1724):
grid points, then the anchor points filtered by `in_bounds`, then the
deterministic downsampling. -/
def getHeatmapDataBounded (h : String → ℤ) (sqrtF : ℚ → ℚ) (token : Option String)
    (remote : ℚ → ℚ → RemoteResult) (sw ne : ℚ × ℚ) (maxPoints : ℤ) :
    Option (List HeatPoint) :=
  let b := normBounds sw ne
  let grid := boundedGrid h sqrtF b
  let realInBounds := (getLimitedRealData h sqrtF token remote).filter (inBounds b)
  downsample (grid ++ realInBounds) maxPoints

/-! ## Resilient Provider (spec §4.1)

The cache / rate-limiter / circuit-breaker wrapper described by the spec is
part of this repository but absent from the `src/` snapshot (the
`get_air_quality` present there has no cache, rate window or breaker), so it
is modelled from the spec. -/

/-- Modelled from the spec: injectable configuration of the Resilient
Provider — cache TTL, breaker failure threshold, breaker cooldown and
rate-window budget (spec §3, §9); absent from `src/`. -/
structure RConfig where
  ttl : ℚ
  threshold : ℕ
  cooldown : ℚ
  maxPerMinute : ℕ

/-- Modelled from the spec: the shared mutable state of the Resilient
Provider — cache entries (key, sample, storedAt; newest first), the
breaker's consecutive-failure counter and opened-at time (0 when reset,
per "the counter/time are reset to zero"), and the rate window of request
instants (spec §3); absent from `src/`. -/
structure RState where
  cache : List ((ℚ × ℚ) × Sample × ℚ)
  failures : ℕ
  openedAt : ℚ
  window : List ℚ

/-- Modelled from the spec: the remote call outcome as the provider sees it
— a well-formed success sample, or any of the four failure classes
(timeout, transport error, malformed response, no data), which the spec
treats identically (spec §7); absent from `src/`. -/
inductive RemoteCall where
  | success (s : Sample)
  | failure

/-- Modelled from the spec: the cache key, coordinates rounded to 4 decimal
places (spec §4.1 step 1); absent from `src/`.  `round` is round-half-up
on exact rationals (the spec does not fix the tie rule of float rounding). -/
def round4 (q : ℚ) : ℚ := ((round (q * 10000) : ℤ) : ℚ) / 10000

/-- Modelled from the spec: cache lookup — the newest entry for the key, if
still live ("entry invalid once now - storedAt > TTL", spec §3); absent
from `src/`. -/
def cacheLookup (cfg : RConfig) (st : RState) (now : ℚ) (key : ℚ × ℚ) :
    Option Sample :=
  (st.cache.find? (fun e => decide (e.1 = key))).bind
    (fun e => if now - e.2.2 ≤ cfg.ttl then some e.2.1 else none)

/-- Modelled from the spec: "breaker is open iff consecutiveFailures ≥
threshold and now - openedAt < cooldown" (spec §3); absent from `src/`. -/
def breakerOpen (cfg : RConfig) (st : RState) (now : ℚ) : Bool :=
  decide (cfg.threshold ≤ st.failures ∧ now - st.openedAt < cfg.cooldown)

/-- Modelled from the spec: the rate window pruned of entries older than
60 s (spec §3); absent from `src/`. -/
def pruneWindow (st : RState) (now : ℚ) : List ℚ :=
  st.window.filter (fun t => decide (now - t ≤ 60))

/-- Result of one Resilient Provider call: the sample, the next state, and
whether the remote provider was actually invoked. -/
structure RResult where
  sample : Sample
  state : RState
  attemptedRemote : Bool

/-- Modelled from the spec: `GetAirQuality(lat, lng)` of the Resilient
Provider (spec §4.1 steps 1-5 and the time-based half-open rule of its
closing paragraph); absent from `src/`.  `now` is the call instant and
`remote` the outcome the remote provider would produce if invoked. -/
def resilientGetAirQuality (cfg : RConfig) (h : String → ℤ) (sqrtF : ℚ → ℚ)
    (st : RState) (now : ℚ) (remote : RemoteCall) (lat lng : ℚ) : RResult :=
  let key := (round4 lat, round4 lng)
  match cacheLookup cfg st now key with
  | some s => ⟨s, st, false⟩                            -- step 1: cache hit
  | none =>
    if breakerOpen cfg st now then                      -- step 2: breaker open
      ⟨estimateSample h sqrtF lat lng, st, false⟩
    else
      -- half-open self-reset: threshold reached but cooldown elapsed
      let st1 := if cfg.threshold ≤ st.failures then
        { st with failures := 0, openedAt := 0 } else st
      let pruned := pruneWindow st1 now
      if cfg.maxPerMinute ≤ pruned.length then          -- step 3: rate saturated
        ⟨estimateSample h sqrtF lat lng, { st1 with window := pruned }, false⟩
      else
        let st2 := { st1 with window := pruned ++ [now] }  -- step 4: attempt
        match remote with
        | .success s =>
          let st3 := { st2 with cache := (key, s, now) :: st2.cache
                                failures := st2.failures - 1 }
          ⟨s, st3, true⟩
        | .failure =>
          let f := st2.failures + 1
          let st3 := { st2 with failures := f
                                openedAt := if f = cfg.threshold then now
                                            else st2.openedAt }
          ⟨estimateSample h sqrtF lat lng, st3, true⟩

/-- Modelled from the spec: `n` consecutive failing calls at instants
`t, t+1, …, t+n-1` (spec §8 "after threshold consecutive remote failures");
absent from `src/`. -/
def afterFailures (cfg : RConfig) (h : String → ℤ) (sqrtF : ℚ → ℚ)
    (lat lng : ℚ) : ℕ → ℚ → RState → RState
  | 0, _, st => st
  | n + 1, t, st =>
    afterFailures cfg h sqrtF lat lng n (t + 1)
      (resilientGetAirQuality cfg h sqrtF st t .failure lat lng).state

/-- Python check `isinstance(x, dict)` on an optional JSON value. -/
def isObjOpt : Option JVal → Bool
  | some (.obj _) => true
  | _ => false

/-! ## Theorems -/

/-- C1 (amended): `get_air_quality` propagates no error and returns an
estimate-tagged sample — with a 6-entry synthetic pollutant breakdown and a
dominant pollutant — whenever the provider is unconfigured, the request
fails (timeout, transport error, bad HTTP status), or the parsed response
is an object whose envelope the source rejects (status not `"ok"`, or
`data` not an object).  A response malformed below that envelope guard
escapes this guarantee — see the counterexample. -/
theorem getAirQuality_fallback_total (h : String → ℤ) (sqrtF : ℚ → ℚ)
    (token : Option String) (remote : RemoteResult) (lat lng : ℚ)
    (hfail : token = none ∨ remote = RemoteResult.requestError ∨
      ∃ data, remote = RemoteResult.response data ∧
        (∃ fs, data = JVal.obj fs) ∧
        (statusOk (jGet data "status") = false ∨
         isObjOpt (jGet data "data") = false)) :
    getAirQuality h sqrtF token remote lat lng =
      Except.ok (estimateSample h sqrtF lat lng) ∧
    (estimateSample h sqrtF lat lng).provider = "estimate" ∧
    (estimateSample h sqrtF lat lng).pollutants.length = 6 ∧
    ∃ c, (estimateSample h sqrtF lat lng).dominantPollutant = JVal.str c := by
  refine ⟨?_, rfl,
    by simp [estimateSample, generateEstimatedPollutants, pollutantInfo], ⟨_, rfl⟩⟩
  rcases hfail with htok | hrem | ⟨data, hrem, ⟨fs, hdata⟩, hcond⟩
  · subst htok; rfl
  · subst hrem; cases token <;> rfl
  · subst hrem; subst hdata
    cases token with
    | none => rfl
    | some t =>
      simp only [getAirQuality]
      rcases hcond with hst | hdd
      · simp [hst]
      · by_cases hst2 : statusOk (jGet (JVal.obj fs) "status") = true
        · simp only [hst2, if_true]
          rcases hx : jGet (JVal.obj fs) "data" with - | val
          · simp [hx]
          · cases val <;> simp_all [isObjOpt]
        · simp [hst2]

/-- Witness for C1 (amended): an unconfigured provider falls back to the
estimate sample. -/
theorem getAirQuality_fallback_total_witness :
    getAirQuality (fun _ => 0) id none RemoteResult.requestError
      40.7128 (-74.0060) =
      Except.ok (estimateSample (fun _ => 0) id 40.7128 (-74.0060)) ∧
    (estimateSample (fun _ => 0) id 40.7128 (-74.0060)).provider = "estimate" ∧
    (estimateSample (fun _ => 0) id 40.7128 (-74.0060)).pollutants.length = 6 ∧
    ∃ c, (estimateSample (fun _ => 0) id 40.7128 (-74.0060)).dominantPollutant =
      JVal.str c :=
  getAirQuality_fallback_total (fun _ => 0) id none RemoteResult.requestError
    40.7128 (-74.0060) (Or.inl rfl)

/-- Counterexample for C1 as stated: a malformed remote response whose JSON
body is the string `"x"` (HTTP 200, valid JSON, wrong shape) makes
`data.get("status")` raise `AttributeError`, which the
`except requests.exceptions.RequestException` clause does not catch — the
operation propagates an error instead of falling back to estimation. -/
theorem getAirQuality_raises_on_nonobject_body :
    getAirQuality (fun _ => 0) id (some "token")
      (RemoteResult.response (JVal.str "x")) 40.7128 (-74.0060) =
      Except.error PyErr.attributeError := rfl

/-- C2: `EstimateAQI` is deterministic: two calls with identical inputs
return identical output — the result is a pure function of the coordinates,
the (per-process fixed) string-hash scheme `h` and the square-root routine;
the embedding reads no other state. -/
theorem estimate_deterministic (h : String → ℤ) (sqrtF : ℚ → ℚ)
    (lat₁ lng₁ lat₂ lng₂ : ℚ) (hlat : lat₁ = lat₂) (hlng : lng₁ = lng₂) :
    estimatePollutionByLocation h sqrtF lat₁ lng₁ =
    estimatePollutionByLocation h sqrtF lat₂ lng₂ := by
  rw [hlat, hlng]

/-- Witness for C2 at the coordinates of New York City. -/
theorem estimate_deterministic_witness :
    estimatePollutionByLocation (fun _ => 0) id 40.7128 (-74.0060) =
    estimatePollutionByLocation (fun _ => 0) id 40.7128 (-74.0060) :=
  estimate_deterministic (fun _ => 0) id 40.7128 (-74.0060) 40.7128 (-74.0060)
    rfl rfl

/-- C7: for every input and every hash/square-root routine, the estimation
model returns a value in `[5, 200]`; the ocean early return stays in
`[15, 24] ⊆ [5, 200]` and the polar early return in `[10, 17] ⊆ [5, 200]`. -/
theorem estimate_bounded (h : String → ℤ) (sqrtF : ℚ → ℚ) (lat lng : ℚ) :
    5 ≤ estimatePollutionByLocation h sqrtF lat lng ∧
    estimatePollutionByLocation h sqrtF lat lng ≤ 200 := by
  unfold estimatePollutionByLocation
  split_ifs with h₁ h₂
  · have ha : (0 : ℤ) ≤ h (toString lat ++ toString lng) % 10 :=
      Int.emod_nonneg _ (by norm_num)
    have hb : h (toString lat ++ toString lng) % 10 < 10 :=
      Int.emod_lt_of_pos _ (by norm_num)
    omega
  · have ha : (0 : ℤ) ≤ h (toString lat ++ toString lng) % 8 :=
      Int.emod_nonneg _ (by norm_num)
    have hb : h (toString lat ++ toString lng) % 8 < 8 :=
      Int.emod_lt_of_pos _ (by norm_num)
    omega
  · refine ⟨le_max_left _ _, max_le (by norm_num) ?_⟩
    exact le_trans (min_le_left _ _) (by norm_num)

/-! ### Downsampling (C5, C10) -/

/-- The sampling loop never emits more elements than its remaining capacity. -/
theorem sampleLoop_length_le {α : Type} (points : List α) (step : ℚ) :
    ∀ (fuel : ℕ) (i : ℚ), (sampleLoop points step fuel i).length ≤ fuel := by
  intro fuel
  induction fuel with
  | zero => intro i; simp [sampleLoop]
  | succ n ih =>
    intro i
    simp only [sampleLoop]
    cases points[(⌊i⌋).toNat]? with
    | none => simp
    | some p => simpa using ih (i + step)

/-- C5 (amended): for every point list and every `maxPoints ≥ 1` the
downsampling step succeeds, its result has length at most `maxPoints`, and
when the input already has at most `maxPoints` elements it is returned
unchanged.  (`maxPoints = 0` instead raises `ZeroDivisionError` whenever the
list is longer — see the counterexample.) -/
theorem downsample_bound {α : Type} (points : List α) (k : ℤ) (hk : 1 ≤ k) :
    ∃ l, downsample points k = some l ∧ (l.length : ℤ) ≤ k ∧
      ((points.length : ℤ) ≤ k → l = points) := by
  by_cases hlt : k < (points.length : ℤ)
  · have hk0 : ¬(k = 0) := by omega
    have heq : downsample points k =
        some (sampleLoop points ((points.length : ℚ) / (k : ℚ)) k.toNat 0) := by
      simp [downsample, hlt, hk0]
    refine ⟨_, heq, ?_, ?_⟩
    · have := sampleLoop_length_le points ((points.length : ℚ) / (k : ℚ)) k.toNat 0
      omega
    · intro hle; omega
  · exact ⟨points, by simp [downsample, hlt], by omega, fun _ => rfl⟩

/-- Witness for C5 (amended) at a 3-element list and `maxPoints = 2`. -/
theorem downsample_bound_witness :
    ∃ l, downsample [(10 : ℤ), 20, 30] 2 = some l ∧ (l.length : ℤ) ≤ 2 ∧
      (((3 : ℕ) : ℤ) ≤ 2 → l = [(10 : ℤ), 20, 30]) :=
  downsample_bound [(10 : ℤ), 20, 30] 2 (by norm_num)

/-- Counterexample for C5 as stated ("for every maxPoints"): at
`maxPoints = 0` and a nonempty list the source raises `ZeroDivisionError`
(`float(total) / float(max_points)`), so no result of any length is
returned. -/
theorem downsample_zero_maxPoints_raises :
    ¬ ∃ l : List ℤ, downsample [(7 : ℤ)] 0 = some l ∧ (l.length : ℤ) ≤ 0 := by
  rintro ⟨l, hl, -⟩
  simp [downsample] at hl

/-- The index selected by the sampling loop at its `j`-th iteration:
`int(j * (total / maxPoints))`. -/
def strideIdx (total : ℕ) (k : ℤ) (j : ℕ) : ℕ :=
  (⌊(j : ℚ) * ((total : ℚ) / (k : ℚ))⌋).toNat

/-- When every index probed by the loop is in range, the loop returns one
element per unit of fuel, the `j`-th being the input element at index
`int(i + j*step)`. -/
theorem sampleLoop_spec {α : Type} (points : List α) (step : ℚ) :
    ∀ (fuel : ℕ) (i : ℚ),
      (∀ j : ℕ, j < fuel → (⌊i + (j : ℚ) * step⌋).toNat < points.length) →
      (sampleLoop points step fuel i).length = fuel ∧
      ∀ j : ℕ, j < fuel →
        (sampleLoop points step fuel i)[j]? =
          points[(⌊i + (j : ℚ) * step⌋).toNat]? := by
  intro fuel
  induction fuel with
  | zero => intro i _; exact ⟨rfl, fun j hj => absurd hj (by omega)⟩
  | succ n ih =>
    intro i H
    have h0 : (⌊i⌋).toNat < points.length := by
      have := H 0 (by omega); simpa using this
    have hshift : ∀ j : ℕ, j < n →
        (⌊(i + step) + (j : ℚ) * step⌋).toNat < points.length := by
      intro j hj
      have := H (j + 1) (by omega)
      have harg : i + ((j + 1 : ℕ) : ℚ) * step = (i + step) + (j : ℚ) * step := by
        push_cast; ring
      rwa [harg] at this
    obtain ⟨ihlen, ihget⟩ := ih (i + step) hshift
    obtain ⟨p0, hlook⟩ : ∃ p, points[(⌊i⌋).toNat]? = some p :=
      ⟨_, List.getElem?_eq_getElem h0⟩
    constructor
    · simp only [sampleLoop, hlook, List.length_cons, ihlen]
    · intro j hj
      match j with
      | 0 =>
        simp only [sampleLoop, hlook, List.getElem?_cons_zero]
        rw [show i + ((0 : ℕ) : ℚ) * step = i by push_cast; ring]
        exact hlook.symm
      | j + 1 =>
        have harg : i + ((j + 1 : ℕ) : ℚ) * step = (i + step) + (j : ℚ) * step := by
          push_cast; ring
        simp only [sampleLoop, hlook, List.getElem?_cons_succ]
        rw [harg]
        exact ihget j (by omega)

/-- All probed stride indices are in range when `1 ≤ maxPoints < total`. -/
theorem strideIdx_valid (total : ℕ) (k : ℤ) (hk : 1 ≤ k) (hlt : k < (total : ℤ)) :
    ∀ j : ℕ, j < k.toNat →
      (⌊(0 : ℚ) + (j : ℚ) * ((total : ℚ) / (k : ℚ))⌋).toNat < total := by
  intro j hj
  set step : ℚ := (total : ℚ) / (k : ℚ) with hstepdef
  have hk0 : (0 : ℚ) < (k : ℚ) := by exact_mod_cast (by omega : (0 : ℤ) < k)
  have hstep1 : (1 : ℚ) < step := by
    rw [hstepdef, lt_div_iff₀ hk0, one_mul]; exact_mod_cast hlt
  have hks : (k : ℚ) * step = (total : ℚ) := by
    rw [hstepdef]; field_simp
  have hj1 : (j : ℚ) ≤ (k : ℚ) - 1 := by
    have h' : ((j : ℤ) : ℚ) ≤ ((k - 1 : ℤ) : ℚ) :=
      by exact_mod_cast (by omega : (j : ℤ) ≤ k - 1)
    push_cast at h'
    linarith
  have hmul : (j : ℚ) * step < (total : ℚ) := by
    have h₁ : (j : ℚ) * step ≤ ((k : ℚ) - 1) * step :=
      mul_le_mul_of_nonneg_right hj1 (by linarith)
    have h₂ : ((k : ℚ) - 1) * step = (total : ℚ) - step := by
      rw [sub_mul, one_mul, hks]
    linarith
  have hfl : ⌊(0 : ℚ) + (j : ℚ) * step⌋ < (total : ℤ) := by
    rw [Int.floor_lt]; push_cast; linarith
  have hfl0 : (0 : ℤ) ≤ ⌊(0 : ℚ) + (j : ℚ) * step⌋ := by
    apply Int.floor_nonneg.mpr
    have : (0 : ℚ) ≤ (j : ℚ) * step := by positivity
    linarith
  omega

/-- The stride indices are strictly increasing when `1 ≤ maxPoints < total`. -/
theorem strideIdx_strictMono (total : ℕ) (k : ℤ) (hk : 1 ≤ k)
    (hlt : k < (total : ℤ)) : StrictMono (strideIdx total k) := by
  apply strictMono_nat_of_lt_succ
  intro j
  unfold strideIdx
  set step : ℚ := (total : ℚ) / (k : ℚ) with hstepdef
  have hk0 : (0 : ℚ) < (k : ℚ) := by exact_mod_cast (by omega : (0 : ℤ) < k)
  have hstep1 : (1 : ℚ) < step := by
    rw [hstepdef, lt_div_iff₀ hk0, one_mul]; exact_mod_cast hlt
  have hsucc : ⌊(j : ℚ) * step⌋ + 1 ≤ ⌊((j + 1 : ℕ) : ℚ) * step⌋ := by
    rw [← Int.floor_add_one]
    apply Int.floor_le_floor
    push_cast
    nlinarith [Nat.cast_nonneg (α := ℚ) j]
  have h0 : (0 : ℤ) ≤ ⌊(j : ℚ) * step⌋ := by
    apply Int.floor_nonneg.mpr; positivity
  omega

/-- C10: when the collected list is strictly longer than `maxPoints ≥ 1`,
the downsampling step returns exactly `maxPoints` elements, the `j`-th being
the input element at index `int(j * stride)`, and those indices are strictly
increasing — the output is an order-preserving subsequence of the input. -/
theorem downsample_exact_stride {α : Type} (points : List α) (k : ℤ)
    (hk : 1 ≤ k) (hlt : k < (points.length : ℤ)) :
    ∃ l, downsample points k = some l ∧ (l.length : ℤ) = k ∧
      (∀ j : ℕ, (j : ℤ) < k → l[j]? = points[strideIdx points.length k j]?) ∧
      (∀ j₁ j₂ : ℕ, j₁ < j₂ →
        strideIdx points.length k j₁ < strideIdx points.length k j₂) := by
  have hk0 : ¬(k = 0) := by omega
  have heq : downsample points k =
      some (sampleLoop points ((points.length : ℚ) / (k : ℚ)) k.toNat 0) := by
    simp [downsample, hlt, hk0]
  obtain ⟨hlen, hget⟩ := sampleLoop_spec points ((points.length : ℚ) / (k : ℚ))
    k.toNat 0 (strideIdx_valid points.length k hk hlt)
  refine ⟨_, heq, by omega, ?_, fun j₁ j₂ h12 => strideIdx_strictMono _ k hk hlt h12⟩
  intro j hj
  have hj' : j < k.toNat := by omega
  rw [hget j hj']
  congr 1
  simp [strideIdx]

/-- Witness for C10 at the 5-element list `[10, 20, 30, 40, 50]` and
`maxPoints = 2` (stride 2.5, selected indices 0 and 2). -/
theorem downsample_exact_stride_witness :
    ∃ l, downsample [(10 : ℤ), 20, 30, 40, 50] 2 = some l ∧
      (l.length : ℤ) = 2 ∧
      (∀ j : ℕ, (j : ℤ) < 2 → l[j]? = [(10 : ℤ), 20, 30, 40, 50][strideIdx 5 2 j]?) ∧
      (∀ j₁ j₂ : ℕ, j₁ < j₂ → strideIdx 5 2 j₁ < strideIdx 5 2 j₂) :=
  downsample_exact_stride [(10 : ℤ), 20, 30, 40, 50] 2 (by norm_num) (by norm_num)

/-! ### Hotspot influence (C8) -/

/-- A point strictly outside the radius of every hotspot of the table
(squared-distance form, so no square root is involved). -/
def clearOfHotspots (p : ℚ × ℚ) : Bool :=
  pollutionHotspots.all (fun hs =>
    decide (hs.radius ^ 2 ≤ (p.1 - hs.clat) ^ 2 + (p.2 - hs.clng) ^ 2))

/-- Numeric facts about the hotspot table: every radius is at least 8 and
every peak pollution lies in `[50, 150]`. -/
theorem hotspot_table_facts :
    ∀ hs ∈ pollutionHotspots,
      8 ≤ hs.radius ∧ 50 ≤ hs.pollution ∧ hs.pollution ≤ 150 := by decide

/-- One hotspot step never decreases the running maximum. -/
theorem hotspotStep_ge_acc (sqrtF : ℚ → ℚ) (lat lng acc : ℚ) (hs : Hotspot) :
    acc ≤ hotspotStep sqrtF lat lng acc hs := by
  simp only [hotspotStep]
  split_ifs with hd
  · exact le_max_left _ _
  · exact le_refl _

/-- The hotspot fold never decreases the running maximum. -/
theorem le_foldl_hotspot (sqrtF : ℚ → ℚ) (lat lng : ℚ) :
    ∀ (l : List Hotspot) (acc : ℚ),
      acc ≤ l.foldl (hotspotStep sqrtF lat lng) acc := by
  intro l
  induction l with
  | nil => intro acc; exact le_refl _
  | cons x xs ih =>
    intro acc
    exact le_trans (hotspotStep_ge_acc sqrtF lat lng acc x) (ih _)

/-- If one member of the table forces the step above `c` from any running
maximum, the whole fold ends at least at `c`. -/
theorem foldl_hotspot_ge (sqrtF : ℚ → ℚ) (lat lng c : ℚ) (hs : Hotspot) :
    ∀ (l : List Hotspot) (acc : ℚ), hs ∈ l →
      (∀ a : ℚ, c ≤ hotspotStep sqrtF lat lng a hs) →
      c ≤ l.foldl (hotspotStep sqrtF lat lng) acc := by
  intro l
  induction l with
  | nil => intro acc hmem; exact absurd hmem (List.not_mem_nil hs)
  | cons x xs ih =>
    intro acc hmem hc
    rcases List.mem_cons.mp hmem with hx | hmem2
    · subst hx
      rw [List.foldl_cons]
      exact le_trans (hc acc) (le_foldl_hotspot sqrtF lat lng xs _)
    · exact ih _ hmem2 hc

/-- If no hotspot of the list is within radius, the fold is the identity. -/
theorem foldl_hotspot_skip (sqrtF : ℚ → ℚ) (lat lng : ℚ) :
    ∀ (l : List Hotspot) (acc : ℚ),
      (∀ hs ∈ l,
        ¬(sqrtF ((lat - hs.clat) ^ 2 + (lng - hs.clng) ^ 2) < hs.radius)) →
      l.foldl (hotspotStep sqrtF lat lng) acc = acc := by
  intro l
  induction l with
  | nil => intro acc _; rfl
  | cons x xs ih =>
    intro acc hskip
    have hx := hskip x (List.mem_cons_self x xs)
    have hstep : hotspotStep sqrtF lat lng acc x = acc := by
      simp only [hotspotStep]
      exact if_neg hx
    rw [List.foldl_cons, hstep]
    exact ih acc (fun hs hmem => hskip hs (List.mem_cons_of_mem x hmem))

/-- A nonnegative square root bounds every step by `20 + 150`. -/
theorem foldl_hotspot_le (sqrtF : ℚ → ℚ) (lat lng : ℚ)
    (hpos : ∀ x : ℚ, 0 ≤ x → 0 ≤ sqrtF x) :
    ∀ (l : List Hotspot) (acc : ℚ),
      (∀ hs ∈ l, 8 ≤ hs.radius ∧ 50 ≤ hs.pollution ∧ hs.pollution ≤ 150) →
      acc ≤ 170 → l.foldl (hotspotStep sqrtF lat lng) acc ≤ 170 := by
  intro l
  induction l with
  | nil => intro acc _ hacc; exact hacc
  | cons x xs ih =>
    intro acc hfacts hacc
    refine ih _ (fun hs hmem => hfacts hs (List.mem_cons_of_mem x hmem)) ?_
    obtain ⟨hr, hp50, hp150⟩ := hfacts x (List.mem_cons_self x xs)
    simp only [hotspotStep]
    split_ifs with hd
    · have hd0 : (0 : ℚ) ≤ sqrtF ((lat - x.clat) ^ 2 + (lng - x.clng) ^ 2) :=
        hpos _ (by positivity)
      have hinfl1 : max 0 (1 - sqrtF ((lat - x.clat) ^ 2 + (lng - x.clng) ^ 2)
          / x.radius) ≤ 1 := by
        apply max_le (by norm_num)
        have : 0 ≤ sqrtF ((lat - x.clat) ^ 2 + (lng - x.clng) ^ 2) / x.radius :=
          div_nonneg hd0 (by linarith)
        linarith
      have hinfl0 : 0 ≤ max 0 (1 - sqrtF ((lat - x.clat) ^ 2 + (lng - x.clng) ^ 2)
          / x.radius) := le_max_left _ _
      have : x.pollution * max 0 (1 - sqrtF ((lat - x.clat) ^ 2 +
          (lng - x.clng) ^ 2) / x.radius) ≤ 150 := by
        calc x.pollution * max 0 (1 - sqrtF ((lat - x.clat) ^ 2 +
              (lng - x.clng) ^ 2) / x.radius)
            ≤ 150 * 1 := by
              apply mul_le_mul hp150 hinfl1 hinfl0 (by norm_num)
          _ = 150 := by norm_num
      exact max_le hacc (by linarith)
    · exact hacc

/-- Python `int()` truncation bounded above by any nonnegative integer bound. -/
theorem pyInt_le (q : ℚ) (z : ℤ) (hz : 0 ≤ z) (hq : q ≤ (z : ℚ)) :
    pyInt q ≤ z := by
  unfold pyInt
  split_ifs with hneg
  · have h1 : (0 : ℚ) ≤ -q := by linarith
    have h2 : (0 : ℤ) ≤ ⌊-q⌋ := Int.floor_nonneg.mpr h1
    omega
  · have h1 : ((⌊q⌋ : ℤ) : ℚ) ≤ (z : ℚ) := le_trans (Int.floor_le q) hq
    exact_mod_cast h1

/-- Python `int()` truncation bounded below by any nonnegative integer bound. -/
theorem le_pyInt (q : ℚ) (z : ℤ) (hz : 0 ≤ z) (hq : (z : ℚ) ≤ q) :
    z ≤ pyInt q := by
  unfold pyInt
  split_ifs with hneg
  · exfalso
    have : (z : ℚ) < 0 := lt_of_le_of_lt hq hneg
    have : z < 0 := by exact_mod_cast this
    omega
  · exact Int.le_floor.mpr hq

/-- Bounds of the deterministic jitter `h s % 20 - 10`. -/
theorem variation_bounds (h : String → ℤ) (s : String) :
    -10 ≤ h s % 20 - 10 ∧ h s % 20 - 10 ≤ 9 := by
  have h1 : (0 : ℤ) ≤ h s % 20 := Int.emod_nonneg _ (by norm_num)
  have h2 : h s % 20 < 20 := Int.emod_lt_of_pos _ (by norm_num)
  omega

/-- At a point clear of every hotspot the estimate is at most 29 (at most
24 on the ocean path and 17 on the polar path), provided `sqrtF` respects
lower square-root bounds. -/
theorem estimate_le_of_clear (h : String → ℤ) (sqrtF : ℚ → ℚ)
    (hlb : ∀ x r : ℚ, 8 ≤ r → r * r ≤ x → r ≤ sqrtF x)
    (q : ℚ × ℚ) (hclear : clearOfHotspots q = true) :
    estimatePollutionByLocation h sqrtF q.1 q.2 ≤ 29 := by
  unfold estimatePollutionByLocation
  split_ifs with h₁ h₂
  · have ha : (0 : ℤ) ≤ h (toString q.1 ++ toString q.2) % 10 :=
      Int.emod_nonneg _ (by norm_num)
    have hb : h (toString q.1 ++ toString q.2) % 10 < 10 :=
      Int.emod_lt_of_pos _ (by norm_num)
    omega
  · have ha : (0 : ℤ) ≤ h (toString q.1 ++ toString q.2) % 8 :=
      Int.emod_nonneg _ (by norm_num)
    have hb : h (toString q.1 ++ toString q.2) % 8 < 8 :=
      Int.emod_lt_of_pos _ (by norm_num)
    omega
  · have hclear2 : ∀ hs ∈ pollutionHotspots,
        hs.radius ^ 2 ≤ (q.1 - hs.clat) ^ 2 + (q.2 - hs.clng) ^ 2 := by
      intro hs hmem
      have := List.all_eq_true.mp hclear hs hmem
      exact of_decide_eq_true this
    have hskip : ∀ hs ∈ pollutionHotspots,
        ¬(sqrtF ((q.1 - hs.clat) ^ 2 + (q.2 - hs.clng) ^ 2) < hs.radius) := by
      intro hs hmem
      obtain ⟨hr, -, -⟩ := hotspot_table_facts hs hmem
      have hd2 : hs.radius * hs.radius ≤
          (q.1 - hs.clat) ^ 2 + (q.2 - hs.clng) ^ 2 := by
        have := hclear2 hs hmem; nlinarith
      exact not_lt.mpr (hlb _ _ hr hd2)
    rw [foldl_hotspot_skip sqrtF q.1 q.2 pollutionHotspots 20 hskip]
    obtain ⟨-, hv9⟩ := variation_bounds h
      (toString q.1 ++ "_" ++ toString q.2 ++ "_var")
    have hle : pyInt (20 + ((h (toString q.1 ++ "_" ++ toString q.2 ++ "_var")
        % 20 - 10 : ℤ) : ℚ)) ≤ 29 := by
      apply pyInt_le _ _ (by norm_num)
      have hcast : ((h (toString q.1 ++ "_" ++ toString q.2 ++ "_var")
          % 20 - 10 : ℤ) : ℚ) ≤ 9 := by exact_mod_cast hv9
      push_cast at hcast ⊢
      linarith
    exact max_le (by norm_num) (le_trans (min_le_right _ _) hle)

/-- At the center of a non-ocean, non-polar hotspot the estimate is at
least 60 (the hotspot contributes its full peak, at least 50, on top of
the base 20, and the jitter subtracts at most 10). -/
theorem estimate_center_ge (h : String → ℤ) (sqrtF : ℚ → ℚ)
    (hsqrt0 : sqrtF 0 = 0) (hs : Hotspot) (hmem : hs ∈ pollutionHotspots)
    (hcoc : isOceanArea hs.clat hs.clng = false) (hcpol : ¬(65 < |hs.clat|)) :
    60 ≤ estimatePollutionByLocation h sqrtF hs.clat hs.clng := by
  obtain ⟨hr, hp50, -⟩ := hotspot_table_facts hs hmem
  unfold estimatePollutionByLocation
  rw [hcoc]
  simp only [Bool.false_eq_true, if_false, hcpol, if_neg, if_false]
  have hfold : 20 + hs.pollution ≤
      pollutionHotspots.foldl (hotspotStep sqrtF hs.clat hs.clng) 20 := by
    apply foldl_hotspot_ge sqrtF hs.clat hs.clng _ hs pollutionHotspots 20 hmem
    intro a
    simp only [hotspotStep]
    have hzero : (hs.clat - hs.clat) ^ 2 + (hs.clng - hs.clng) ^ 2 = 0 := by
      ring
    rw [hzero, hsqrt0]
    rw [if_pos (by linarith : (0 : ℚ) < hs.radius)]
    rw [zero_div, sub_zero]
    rw [max_eq_right (by norm_num : (0 : ℚ) ≤ 1), mul_one]
    exact le_max_right _ _
  obtain ⟨hvm10, -⟩ := variation_bounds h
    (toString hs.clat ++ "_" ++ toString hs.clng ++ "_var")
  have hge : (60 : ℤ) ≤ pyInt
      (pollutionHotspots.foldl (hotspotStep sqrtF hs.clat hs.clng) 20 +
        ((h (toString hs.clat ++ "_" ++ toString hs.clng ++ "_var")
          % 20 - 10 : ℤ) : ℚ)) := by
    apply le_pyInt _ _ (by norm_num)
    have hcast : (-10 : ℚ) ≤ ((h (toString hs.clat ++ "_" ++ toString hs.clng
        ++ "_var") % 20 - 10 : ℤ) : ℚ) := by exact_mod_cast hvm10
    push_cast at hcast ⊢
    linarith
  have : (60 : ℤ) ≤ min 200 (pyInt _) := le_min (by norm_num) hge
  exact le_trans this (le_max_right _ _)

/-- C8 (amended): for every hotspot of the table whose center is not on
the ocean/polar early-return path, the estimate at the center strictly
exceeds the estimate at any point just outside the radius that is clear of
every hotspot; within the radius the contribution is
`pollution * (radius - d) / radius`, which vanishes as the distance `d`
approaches the radius; and contributions never sum — even where hotspots
overlap the estimate stays at most `20 + 150 + 9 = 179`.  (`sqrtF` is
assumed to agree with the real square root on the comparisons involved.) -/
theorem hotspot_influence (h : String → ℤ) (sqrtF : ℚ → ℚ)
    (hsqrt0 : sqrtF 0 = 0)
    (hpos : ∀ x : ℚ, 0 ≤ x → 0 ≤ sqrtF x)
    (hlb : ∀ x r : ℚ, 8 ≤ r → r * r ≤ x → r ≤ sqrtF x)
    (hs : Hotspot) (hmem : hs ∈ pollutionHotspots)
    (hcoc : isOceanArea hs.clat hs.clng = false) (hcpol : ¬(65 < |hs.clat|))
    (q : ℚ × ℚ) (hclear : clearOfHotspots q = true)
    (_hnear : (q.1 - hs.clat) ^ 2 + (q.2 - hs.clng) ^ 2 ≤ (hs.radius + 1) ^ 2) :
    estimatePollutionByLocation h sqrtF q.1 q.2 <
      estimatePollutionByLocation h sqrtF hs.clat hs.clng ∧
    (∀ d : ℚ, 0 ≤ d → d < hs.radius →
      hotspotContribution hs d = hs.pollution * ((hs.radius - d) / hs.radius)) ∧
    (∀ la lo : ℚ, estimatePollutionByLocation h sqrtF la lo ≤ 179) := by
  obtain ⟨hr, hp50, hp150⟩ := hotspot_table_facts hs hmem
  refine ⟨?_, ?_, ?_⟩
  · have h1 := estimate_le_of_clear h sqrtF hlb q hclear
    have h2 := estimate_center_ge h sqrtF hsqrt0 hs hmem hcoc hcpol
    omega
  · intro d hd0 hdr
    unfold hotspotContribution
    rw [if_pos hdr]
    have hrpos : (0 : ℚ) < hs.radius := by linarith
    have hfrac : d / hs.radius < 1 := (div_lt_one hrpos).mpr hdr
    rw [max_eq_right (by linarith : (0 : ℚ) ≤ 1 - d / hs.radius)]
    congr 1
    field_simp
  · intro la lo
    unfold estimatePollutionByLocation
    split_ifs with h₁ h₂
    · have ha : (0 : ℤ) ≤ h (toString la ++ toString lo) % 10 :=
        Int.emod_nonneg _ (by norm_num)
      have hb : h (toString la ++ toString lo) % 10 < 10 :=
        Int.emod_lt_of_pos _ (by norm_num)
      omega
    · have ha : (0 : ℤ) ≤ h (toString la ++ toString lo) % 8 :=
        Int.emod_nonneg _ (by norm_num)
      have hb : h (toString la ++ toString lo) % 8 < 8 :=
        Int.emod_lt_of_pos _ (by norm_num)
      omega
    · have hfold : pollutionHotspots.foldl (hotspotStep sqrtF la lo) 20 ≤ 170 :=
        foldl_hotspot_le sqrtF la lo hpos pollutionHotspots 20
          hotspot_table_facts (by norm_num)
      obtain ⟨-, hv9⟩ := variation_bounds h
        (toString la ++ "_" ++ toString lo ++ "_var")
      have hle : pyInt (pollutionHotspots.foldl (hotspotStep sqrtF la lo) 20 +
          ((h (toString la ++ "_" ++ toString lo ++ "_var")
            % 20 - 10 : ℤ) : ℚ)) ≤ 179 := by
        apply pyInt_le _ _ (by norm_num)
        have hcast : ((h (toString la ++ "_" ++ toString lo ++ "_var")
            % 20 - 10 : ℤ) : ℚ) ≤ 9 := by exact_mod_cast hv9
        push_cast at hcast ⊢
        linarith
      exact max_le (by norm_num) (le_trans (min_le_right _ _) hle)

/-- The identity function satisfies the lower square-root bound used by the
hotspot theorems: for `8 ≤ r` and `r * r ≤ x` one has `r ≤ x`. -/
theorem id_sqrt_lb : ∀ x r : ℚ, 8 ≤ r → r * r ≤ x → r ≤ id x := by
  intro x r h8 hrx
  simp only [id]
  nlinarith

/-- Witness for C8 (amended) at the Delhi hotspot and the clear point
`(28.6139, 67.1590)`, which lies at squared distance `101.0025` from the
center — just outside the radius-10 disc. -/
theorem hotspot_influence_witness :
    estimatePollutionByLocation (fun _ => 0) id 28.6139 67.1590 <
      estimatePollutionByLocation (fun _ => 0) id 28.6139 77.2090 ∧
    (∀ d : ℚ, 0 ≤ d → d < 10 →
      hotspotContribution ⟨28.6139, 77.2090, 10, 150⟩ d = 150 * ((10 - d) / 10)) ∧
    (∀ la lo : ℚ, estimatePollutionByLocation (fun _ => 0) id la lo ≤ 179) :=
  hotspot_influence (fun _ => 0) id rfl (fun _ hx => hx) id_sqrt_lb
    ⟨28.6139, 77.2090, 10, 150⟩ (by decide) (by decide) (by decide)
    (28.6139, 67.1590) (by decide) (by decide)

/-- Counterexample for C8 as stated ("for every hotspot in the fixed
table"): the Sydney hotspot's center is classified as ocean by
`is_ocean_area` (longitude > 150), so the estimate there takes the ocean
early return (at most 24) and, for hash values such as the constant 19,
is strictly below the estimate at the hotspot-free point
`(-33.8688, 143.1)` — which lies just outside Sydney's radius-8 disc
(squared distance `65.76` is between `64` and `81`).  Every distance
comparison made during this evaluation agrees with the real square root. -/
theorem hotspot_center_not_dominant_sydney :
    (⟨-33.8688, 151.2093, 8, 65⟩ : Hotspot) ∈ pollutionHotspots ∧
    isOceanArea (-33.8688) 151.2093 = true ∧
    (64 : ℚ) ≤ ((151.2093 : ℚ) - 143.1) ^ 2 ∧
    ((151.2093 : ℚ) - 143.1) ^ 2 ≤ 81 ∧
    estimatePollutionByLocation (fun _ => 19) id (-33.8688) 151.2093 <
      estimatePollutionByLocation (fun _ => 19) id (-33.8688) 143.1 := by
  decide

/-! ### Heatmap containment and anchors (C6, C9) -/

/-- Every value emitted by the while-loop range lies between its start and
its stop. -/
theorem mem_qRange {start stop step x : ℚ} (hstep : 0 < step)
    (hx : x ∈ qRange start stop step) : start ≤ x ∧ x ≤ stop := by
  unfold qRange at hx
  split_ifs at hx with hlt
  · simp at hx
  · obtain ⟨k, hk, rfl⟩ := List.mem_map.mp hx
    rw [List.mem_range] at hk
    have hd0 : (0 : ℚ) ≤ (stop - start) / step :=
      div_nonneg (by linarith) (le_of_lt hstep)
    have hf0 : (0 : ℤ) ≤ ⌊(stop - start) / step⌋ := Int.floor_nonneg.mpr hd0
    have hkf : (k : ℤ) ≤ ⌊(stop - start) / step⌋ := by omega
    have hkq : (k : ℚ) ≤ (stop - start) / step := by
      calc (k : ℚ) = ((k : ℤ) : ℚ) := by push_cast; ring
        _ ≤ ((⌊(stop - start) / step⌋ : ℤ) : ℚ) := by exact_mod_cast hkf
        _ ≤ (stop - start) / step := Int.floor_le _
    have hks : (k : ℚ) * step ≤ stop - start := (le_div_iff₀ hstep).mp hkq
    have hbase : (0 : ℚ) ≤ (k : ℚ) * step :=
      mul_nonneg (Nat.cast_nonneg k) (le_of_lt hstep)
    constructor
    · linarith
    · linarith

/-- Bounds of the latitude jitter `h s % 3 - 1`. -/
theorem jitter3_bounds (h : String → ℤ) (s : String) :
    -1 ≤ h s % 3 - 1 ∧ h s % 3 - 1 ≤ 1 := by
  have h1 : (0 : ℤ) ≤ h s % 3 := Int.emod_nonneg _ (by norm_num)
  have h2 : h s % 3 < 3 := Int.emod_lt_of_pos _ (by norm_num)
  omega

/-- Bounds of the longitude jitter `h s % 4 - 2`. -/
theorem jitter4_bounds (h : String → ℤ) (s : String) :
    -2 ≤ h s % 4 - 2 ∧ h s % 4 - 2 ≤ 1 := by
  have h1 : (0 : ℤ) ≤ h s % 4 := Int.emod_nonneg _ (by norm_num)
  have h2 : h s % 4 < 4 := Int.emod_lt_of_pos _ (by norm_num)
  omega

/-- The jittered latitude of a grid node is clamped into `[-85, 85]`. -/
theorem gridLat_bounds (h : String → ℤ) (lat lng : ℚ) :
    -85 ≤ gridLat h lat lng ∧ gridLat h lat lng ≤ 85 :=
  ⟨le_max_left _ _, max_le (by norm_num) (min_le_left _ _)⟩

/-- The jittered longitude of a grid node moves the node by at most 2 west
or 1 east. -/
theorem gridLng0_bounds (h : String → ℤ) (lat lng : ℚ) :
    lng - 2 ≤ gridLng0 h lat lng ∧ gridLng0 h lat lng ≤ lng + 1 := by
  unfold gridLng0
  obtain ⟨h1, h2⟩ := jitter4_bounds h (toString lng ++ "_" ++ toString lat)
  have c1 : (-2 : ℚ) ≤ ((h (toString lng ++ "_" ++ toString lat) % 4 - 2 : ℤ) : ℚ) :=
    by exact_mod_cast h1
  have c2 : ((h (toString lng ++ "_" ++ toString lat) % 4 - 2 : ℤ) : ℚ) ≤ 1 :=
    by exact_mod_cast h2
  constructor <;> linarith

/-- Case analysis of the two sequential wrap conditionals. -/
theorem wrapLng_cases (a : ℚ) :
    (¬(180 < a) ∧ ¬(a < -180) ∧ wrapLng a = a) ∨
    (180 < a ∧ wrapLng a = a - 360) ∨
    (a < -180 ∧ wrapLng a = a + 360) := by
  by_cases h1 : 180 < a
  · refine Or.inr (Or.inl ⟨h1, ?_⟩)
    simp only [wrapLng, if_pos h1]
    rw [if_neg (by linarith : ¬(a - 360 < -180))]
  · by_cases h2 : a < -180
    · refine Or.inr (Or.inr ⟨h2, ?_⟩)
      simp only [wrapLng, if_neg h1]
      rw [if_pos h2]
    · refine Or.inl ⟨h1, h2, ?_⟩
      simp only [wrapLng, if_neg h1]
      rw [if_neg h2]

/-- Every element produced by the sampling loop comes from the input list. -/
theorem sampleLoop_subset {α : Type} (points : List α) (step : ℚ) :
    ∀ (fuel : ℕ) (i : ℚ), ∀ x ∈ sampleLoop points step fuel i, x ∈ points := by
  intro fuel
  induction fuel with
  | zero => intro i x hx; simp [sampleLoop] at hx
  | succ n ih =>
    intro i x hx
    simp only [sampleLoop] at hx
    rcases hl : points[(⌊i⌋).toNat]? with - | p
    · rw [hl] at hx; simp at hx
    · rw [hl] at hx
      rcases List.mem_cons.mp hx with rfl | hx2
      · exact List.getElem?_mem hl
      · exact ih (i + step) x hx2

/-- Downsampling returns a subset of its input. -/
theorem downsample_mem {α : Type} {points l : List α} {k : ℤ}
    (hd : downsample points k = some l) : ∀ x ∈ l, x ∈ points := by
  unfold downsample at hd
  split_ifs at hd with h1 h2
  · obtain rfl := Option.some.inj hd
    exact fun x hx => sampleLoop_subset points _ k.toNat 0 x hx
  · obtain rfl := Option.some.inj hd
    exact fun x hx => hx

/-- A member of the anchor list is one of the five key locations, is marked
`estimated = false`, carries a positive AQI, and was resolved through
`get_air_quality` without an uncaught exception. -/
theorem mem_getLimitedRealData (h : String → ℤ) (sqrtF : ℚ → ℚ)
    (token : Option String) (remote : ℚ → ℚ → RemoteResult) (p : HeatPoint)
    (hp : p ∈ getLimitedRealData h sqrtF token remote) :
    (p.lat, p.lng) ∈ keyLocations ∧ p.estimated = false ∧ 0 < p.aqi ∧
    ∃ s, getAirQuality h sqrtF token (remote p.lat p.lng) p.lat p.lng =
      Except.ok s := by
  unfold getLimitedRealData at hp
  obtain ⟨loc, hloc, hf⟩ := List.mem_filterMap.mp hp
  rcases hq : getAirQuality h sqrtF token (remote loc.1 loc.2) loc.1 loc.2
    with e | s
  · rw [hq] at hf; simp at hf
  · rw [hq] at hf
    simp only at hf
    set n : ℤ := (pyIntOfJVal (if jTruthy s.aqi = true then s.aqi
      else JVal.num 0)).getD 0 with hn
    split_ifs at hf with hnn hpos
    obtain rfl := Option.some.inj hf
    exact ⟨by simpa using hloc, rfl, hpos, s, hq⟩

/-- The five anchor coordinates lie in `[-85, 85] × [-180, 180]`. -/
theorem keyLocations_bounds :
    ∀ q ∈ keyLocations, -85 ≤ q.1 ∧ q.1 ≤ 85 ∧ -180 ≤ q.2 ∧ q.2 ≤ 180 := by
  decide

/-- Every point of the bounded grid is marked `estimated = true`. -/
theorem boundedGrid_estimated (h : String → ℤ) (sqrtF : ℚ → ℚ) (b : Bounds)
    (p : HeatPoint) (hp : p ∈ boundedGrid h sqrtF b) : p.estimated = true := by
  simp only [boundedGrid] at hp
  obtain ⟨lat, -, hp2⟩ := List.mem_flatMap.mp hp
  rcases hcr : b.crosses with - | -
  · rw [hcr] at hp2
    simp only [Bool.false_eq_true, if_false] at hp2
    obtain ⟨lng, -, rfl⟩ := List.mem_map.mp hp2
    rfl
  · rw [hcr] at hp2
    simp only [if_true] at hp2
    rcases List.mem_append.mp hp2 with hm | hm <;>
      · obtain ⟨lng, -, rfl⟩ := List.mem_map.mp hm
        rfl

/-- The adaptive steps of the bounded grid are strictly positive. -/
theorem quarter_max_pos (x : ℚ) : 0 < max 0.25 (min 8 x) :=
  lt_of_lt_of_le (by norm_num) (le_max_left _ _)

/-- What passing the `in_bounds` filter means: the latitude band always,
and the wrap-aware longitude membership according to `crosses`. -/
theorem inBounds_spec (b : Bounds) (p : HeatPoint) (hib : inBounds b p = true) :
    (b.latMin ≤ p.lat ∧ p.lat ≤ b.latMax) ∧
    (b.crosses = true → b.lngMin ≤ p.lng ∨ p.lng ≤ b.lngMax) ∧
    (b.crosses = false → b.lngMin ≤ p.lng ∧ p.lng ≤ b.lngMax) := by
  by_cases hlat : b.latMin ≤ p.lat ∧ p.lat ≤ b.latMax
  · unfold inBounds at hib
    rw [if_pos hlat] at hib
    refine ⟨hlat, ?_, ?_⟩
    · intro hcr
      rw [hcr] at hib
      simp only [if_true] at hib
      exact of_decide_eq_true hib
    · intro hcr
      rw [hcr] at hib
      simp only [Bool.false_eq_true, if_false] at hib
      exact of_decide_eq_true hib
  · unfold inBounds at hib
    rw [if_neg hlat] at hib
    exact absurd hib (by simp)

/-- C6 (amended): for any bounds with longitudes in `[-180, 180]`, every
returned point has latitude in `[-85, 85]`.  For a non-wrapping viewport
every returned longitude lies in `[-180, 180]`, and within the jitter
tolerance of the viewport (`[lngMin - 2, lngMax + 1]`) except for points
jittered past ±180, which wrap to the opposite edge.  For a wrapping
viewport the jittered longitude is neither wrapped nor clamped, so it lies
within jitter tolerance of `[lngMin, 180] ∪ [-180, lngMax]` — i.e. in
`[lngMin - 2, 181] ∪ [-182, lngMax + 1]` — and may leave `[-180, 180]`
(see the counterexample). -/
theorem heatmap_containment (h : String → ℤ) (sqrtF : ℚ → ℚ)
    (token : Option String) (remote : ℚ → ℚ → RemoteResult)
    (sw ne : ℚ × ℚ) (maxPoints : ℤ) (r : List HeatPoint)
    (h1 : -180 ≤ sw.2) (_h2 : sw.2 ≤ 180) (_h3 : -180 ≤ ne.2) (h4 : ne.2 ≤ 180)
    (hres : getHeatmapDataBounded h sqrtF token remote sw ne maxPoints = some r) :
    ∀ p ∈ r, (-85 ≤ p.lat ∧ p.lat ≤ 85) ∧
      ((normBounds sw ne).crosses = true →
        (sw.2 - 2 ≤ p.lng ∧ p.lng ≤ 181) ∨
        (-182 ≤ p.lng ∧ p.lng ≤ ne.2 + 1)) ∧
      ((normBounds sw ne).crosses = false →
        (-180 ≤ p.lng ∧ p.lng ≤ 180) ∧
        ((sw.2 - 2 ≤ p.lng ∧ p.lng ≤ ne.2 + 1) ∨
         p.lng ≤ -179 ∨ 178 ≤ p.lng)) := by
  intro p hp
  simp only [getHeatmapDataBounded] at hres
  have hmem := downsample_mem hres p hp
  have hlngMin : (normBounds sw ne).lngMin = sw.2 := rfl
  have hlngMax : (normBounds sw ne).lngMax = ne.2 := rfl
  rcases List.mem_append.mp hmem with hg | ha
  · -- a jittered grid node
    simp only [boundedGrid] at hg
    obtain ⟨lat, -, hp2⟩ := List.mem_flatMap.mp hg
    cases hcr : (normBounds sw ne).crosses with
    | false =>
      rw [if_neg (by simp [hcr])] at hp2
      obtain ⟨lng, hlng, rfl⟩ := List.mem_map.mp hp2
      obtain ⟨hl1, hl2⟩ := mem_qRange (quarter_max_pos _) hlng
      rw [hlngMin] at hl1
      rw [hlngMax] at hl2
      obtain ⟨ha1, ha2⟩ := gridLat_bounds h lat lng
      obtain ⟨hb1, hb2⟩ := gridLng0_bounds h lat lng
      have hplat : (gridPointNoCross h sqrtF lat lng).lat = gridLat h lat lng := rfl
      have hplng : (gridPointNoCross h sqrtF lat lng).lng =
        wrapLng (gridLng0 h lat lng) := rfl
      refine ⟨⟨by rw [hplat]; exact ha1, by rw [hplat]; exact ha2⟩, ?_, ?_⟩
      · intro hc; simp [hcr] at hc
      · intro _
        rw [hplng]
        rcases wrapLng_cases (gridLng0 h lat lng) with
          ⟨hn1, hn2, heq⟩ | ⟨hgt, heq⟩ | ⟨hlt, heq⟩
        · rw [heq]
          have hx1 := not_lt.mp hn1
          have hx2 := not_lt.mp hn2
          exact ⟨⟨by linarith, by linarith⟩, Or.inl ⟨by linarith, by linarith⟩⟩
        · rw [heq]
          refine ⟨⟨by linarith, by linarith⟩, Or.inr (Or.inl (by linarith))⟩
        · rw [heq]
          refine ⟨⟨by linarith, by linarith⟩, Or.inr (Or.inr (by linarith))⟩
    | true =>
      rw [if_pos hcr] at hp2
      have hcross : ∀ q ∈ r, True := fun _ _ => trivial
      rcases List.mem_append.mp hp2 with hm | hm
      · obtain ⟨lng, hlng, rfl⟩ := List.mem_map.mp hm
        obtain ⟨hl1, hl2⟩ := mem_qRange (quarter_max_pos _) hlng
        rw [hlngMin] at hl1
        obtain ⟨ha1, ha2⟩ := gridLat_bounds h lat lng
        obtain ⟨hb1, hb2⟩ := gridLng0_bounds h lat lng
        have hplat : (gridPointCross h sqrtF lat lng).lat = gridLat h lat lng := rfl
        have hplng : (gridPointCross h sqrtF lat lng).lng =
          gridLng0 h lat lng := rfl
        refine ⟨⟨by rw [hplat]; exact ha1, by rw [hplat]; exact ha2⟩, ?_, ?_⟩
        · intro _
          rw [hplng]
          exact Or.inl ⟨by linarith, by linarith⟩
        · intro hc; simp [hcr] at hc
      · obtain ⟨lng, hlng, rfl⟩ := List.mem_map.mp hm
        obtain ⟨hl1, hl2⟩ := mem_qRange (quarter_max_pos _) hlng
        rw [hlngMax] at hl2
        obtain ⟨ha1, ha2⟩ := gridLat_bounds h lat lng
        obtain ⟨hb1, hb2⟩ := gridLng0_bounds h lat lng
        have hplat : (gridPointCross h sqrtF lat lng).lat = gridLat h lat lng := rfl
        have hplng : (gridPointCross h sqrtF lat lng).lng =
          gridLng0 h lat lng := rfl
        refine ⟨⟨by rw [hplat]; exact ha1, by rw [hplat]; exact ha2⟩, ?_, ?_⟩
        · intro _
          rw [hplng]
          exact Or.inr ⟨by linarith, by linarith⟩
        · intro hc; simp [hcr] at hc
  · -- an anchor point filtered by `in_bounds`
    obtain ⟨hmem2, hib⟩ := List.mem_filter.mp ha
    obtain ⟨hkl, -, -, -⟩ :=
      mem_getLimitedRealData h sqrtF token remote p hmem2
    obtain ⟨hk1, hk2, hk3, hk4⟩ := keyLocations_bounds (p.lat, p.lng) hkl
    simp only at hk1 hk2 hk3 hk4
    obtain ⟨-, hcross, hnocross⟩ := inBounds_spec _ p hib
    refine ⟨⟨hk1, hk2⟩, ?_, ?_⟩
    · intro hc
      rcases hcross hc with hle | hge
      · rw [hlngMin] at hle
        exact Or.inl ⟨by linarith, by linarith⟩
      · rw [hlngMax] at hge
        exact Or.inr ⟨by linarith, by linarith⟩
    · intro hc
      obtain ⟨hle, hge⟩ := hnocross hc
      rw [hlngMin] at hle
      rw [hlngMax] at hge
      exact ⟨⟨hk3, hk4⟩, Or.inl ⟨by linarith, by linarith⟩⟩

/-- Counterexample for C6 as stated: for the antimeridian-wrapping viewport
`sw = (10, 179)`, `ne = (10.1, -179)` and a process hash assigning 3 to
every string (longitude jitter +1), the grid node at longitude 180 is
returned with longitude 181 — outside `[lngMin, 180] ∪ [-180, lngMax]`
and outside `[-180, 180]`, because the wrapping branch neither wraps nor
clamps the jittered longitude. -/
theorem heatmap_lng_escapes_domain :
    (normBounds ((10 : ℚ), 179) ((10.1 : ℚ), -179)).crosses = true ∧
    ∃ p, p ∈ (getHeatmapDataBounded (fun _ => 3) id (some "t")
        (fun _ _ => RemoteResult.response (JVal.obj
          [("status", JVal.str "ok"), ("data", JVal.obj [("aqi", JVal.num 0)])]))
        ((10 : ℚ), 179) ((10.1 : ℚ), -179) 1500).getD [] ∧
      180 < p.lng ∧
      ¬(((179 : ℚ) ≤ p.lng ∧ p.lng ≤ 180) ∨
        ((-180 : ℚ) ≤ p.lng ∧ p.lng ≤ -179)) :=
  ⟨by decide, ⟨9, 181, 18, 18, true⟩, by decide, by decide, by decide⟩

/-- Witness for C6 (amended) at the same wrapping viewport: the escaping
point still satisfies the amended containment (it lies within jitter
tolerance of `[lngMin, 180]`). -/
theorem heatmap_containment_witness :
    ((-85 : ℚ) ≤ (9 : ℚ) ∧ (9 : ℚ) ≤ 85) ∧
    ((normBounds ((10 : ℚ), 179) ((10.1 : ℚ), -179)).crosses = true →
      ((179 : ℚ) - 2 ≤ 181 ∧ (181 : ℚ) ≤ 181) ∨
      ((-182 : ℚ) ≤ 181 ∧ (181 : ℚ) ≤ -179 + 1)) ∧
    ((normBounds ((10 : ℚ), 179) ((10.1 : ℚ), -179)).crosses = false →
      ((-180 : ℚ) ≤ 181 ∧ (181 : ℚ) ≤ 180) ∧
      (((179 : ℚ) - 2 ≤ 181 ∧ (181 : ℚ) ≤ -179 + 1) ∨
       (181 : ℚ) ≤ -179 ∨ (178 : ℚ) ≤ 181)) :=
  heatmap_containment (fun _ => 3) id (some "t")
    (fun _ _ => RemoteResult.response (JVal.obj
      [("status", JVal.str "ok"), ("data", JVal.obj [("aqi", JVal.num 0)])]))
    ((10 : ℚ), 179) ((10.1 : ℚ), -179) 1500
    ((getHeatmapDataBounded (fun _ => 3) id (some "t")
      (fun _ _ => RemoteResult.response (JVal.obj
        [("status", JVal.str "ok"), ("data", JVal.obj [("aqi", JVal.num 0)])]))
      ((10 : ℚ), 179) ((10.1 : ℚ), -179) 1500).getD [])
    (by norm_num) (by norm_num) (by norm_num) (by norm_num)
    (by decide) ⟨9, 181, 18, 18, true⟩ (by decide)

/-- C9: in the bounded heatmap, every returned point marked
`estimated = false` passed the wrap-aware `in_bounds` filter, sits at one of
the five fixed anchor locations, carries the positive AQI obtained by
resolving that location through `get_air_quality`, and that resolution
raised no error. -/
theorem anchors_within_bounds (h : String → ℤ) (sqrtF : ℚ → ℚ)
    (token : Option String) (remote : ℚ → ℚ → RemoteResult)
    (sw ne : ℚ × ℚ) (maxPoints : ℤ) (r : List HeatPoint)
    (hres : getHeatmapDataBounded h sqrtF token remote sw ne maxPoints = some r) :
    ∀ p ∈ r, p.estimated = false →
      inBounds (normBounds sw ne) p = true ∧ (p.lat, p.lng) ∈ keyLocations ∧
      0 < p.aqi ∧
      ∃ s, getAirQuality h sqrtF token (remote p.lat p.lng) p.lat p.lng =
        Except.ok s := by
  intro p hp hest
  simp only [getHeatmapDataBounded] at hres
  have hmem := downsample_mem hres p hp
  rcases List.mem_append.mp hmem with hg | ha
  · have := boundedGrid_estimated h sqrtF _ p hg
    rw [hest] at this
    exact absurd this (by simp)
  · obtain ⟨hmem2, hib⟩ := List.mem_filter.mp ha
    obtain ⟨hkl, -, hpos, hs⟩ :=
      mem_getLimitedRealData h sqrtF token remote p hmem2
    exact ⟨hib, hkl, hpos, hs⟩

/-- Witness for C9: a small viewport around New York City with a successful
remote response of AQI 42, whose result list is the single-node grid plus
the NYC anchor marked `estimated = false`. -/
theorem anchors_within_bounds_witness :
    inBounds (normBounds ((40.7 : ℚ), -74.01) ((40.72 : ℚ), -74.0))
      ⟨40.7128, -74.0060, 42, 42, false⟩ = true ∧
    ((40.7128 : ℚ), (-74.0060 : ℚ)) ∈ keyLocations ∧
    (0 : ℤ) < 42 ∧
    ∃ s, getAirQuality (fun _ => 0) id (some "t")
      (RemoteResult.response (JVal.obj
        [("status", JVal.str "ok"), ("data", JVal.obj [("aqi", JVal.num 42)])]))
      40.7128 (-74.0060) = Except.ok s :=
  anchors_within_bounds (fun _ => 0) id (some "t")
    (fun _ _ => RemoteResult.response (JVal.obj
      [("status", JVal.str "ok"), ("data", JVal.obj [("aqi", JVal.num 42)])]))
    ((40.7 : ℚ), -74.01) ((40.72 : ℚ), -74.0) 1500
    ((getHeatmapDataBounded (fun _ => 0) id (some "t")
      (fun _ _ => RemoteResult.response (JVal.obj
        [("status", JVal.str "ok"), ("data", JVal.obj [("aqi", JVal.num 42)])]))
      ((40.7 : ℚ), -74.01) ((40.72 : ℚ), -74.0) 1500).getD [])
    (by decide) ⟨40.7128, -74.0060, 42, 42, false⟩ (by decide) (by decide)

/-! ### Resilient Provider: cache correctness (C3) and breaker (C4),
both against the spec-modelled provider -/

/-- For a state whose newest cache entry for the key was stored at `t0`, a
call within the TTL returns that entry without a remote attempt and leaves
the state untouched; after the TTL the stale entry no longer short-circuits,
and the call attempts the remote provider whenever the breaker is closed
and the rate window has room. -/
theorem cache_hit_lemma (cfg : RConfig) (h : String → ℤ) (sqrtF : ℚ → ℚ)
    (st1 : RState) (t0 t1 : ℚ) (smp : Sample) (lat2 lng2 : ℚ) (key : ℚ × ℚ)
    (rc : RemoteCall)
    (hhead : ∃ rest, st1.cache = (key, smp, t0) :: rest)
    (hkey : (round4 lat2, round4 lng2) = key) :
    (t1 - t0 ≤ cfg.ttl →
      resilientGetAirQuality cfg h sqrtF st1 t1 rc lat2 lng2 =
        ⟨smp, st1, false⟩) ∧
    (cfg.ttl < t1 - t0 → breakerOpen cfg st1 t1 = false →
      (pruneWindow st1 t1).length < cfg.maxPerMinute →
      (resilientGetAirQuality cfg h sqrtF st1 t1 rc lat2 lng2).attemptedRemote
        = true) := by
  obtain ⟨rest, hc⟩ := hhead
  have hfind : st1.cache.find? (fun e => decide (e.1 = (round4 lat2, round4 lng2)))
      = some (key, smp, t0) := by
    rw [hc, hkey]
    exact List.find?_cons_of_pos _ (by simp)
  constructor
  · intro httl
    have hlook : cacheLookup cfg st1 t1 (round4 lat2, round4 lng2) = some smp := by
      unfold cacheLookup
      rw [hfind]
      simp only [Option.some_bind]
      rw [if_pos httl]
    simp only [resilientGetAirQuality, hlook]
  · intro httl hbr hrate
    have hlook : cacheLookup cfg st1 t1 (round4 lat2, round4 lng2) = none := by
      unfold cacheLookup
      rw [hfind]
      simp only [Option.some_bind]
      rw [if_neg (by linarith : ¬(t1 - t0 ≤ cfg.ttl))]
    simp only [resilientGetAirQuality, hlook, hbr, Bool.false_eq_true, if_false]
    split_ifs <;>
      first
        | (cases rc <;> rfl)
        | (exact absurd (by assumption :
            cfg.maxPerMinute ≤ (pruneWindow st1 t1).length) (not_le.mpr hrate))

/-- C3 (spec-modelled): after a successful remote fetch at `(lat, lng)` at
time `t0` (a call that actually attempted the remote provider), a second
call whose coordinates round to the same 4-decimal cache key and arrives
within the TTL window returns the same sample with no remote attempt and no
state change; once the TTL has expired the entry no longer short-circuits,
and the call is again eligible for a fresh remote attempt (it attempts the
remote provider whenever the breaker reports closed and the pruned rate
window has room). -/
theorem resilient_cache_correct (cfg : RConfig) (h : String → ℤ)
    (sqrtF : ℚ → ℚ) (st : RState) (t0 t1 : ℚ) (smp : Sample)
    (lat lng lat2 lng2 : ℚ) (rc : RemoteCall) (st1 : RState)
    (hkey1 : round4 lat2 = round4 lat) (hkey2 : round4 lng2 = round4 lng)
    (hst1 : st1 = (resilientGetAirQuality cfg h sqrtF st t0
      (RemoteCall.success smp) lat lng).state)
    (hatt : (resilientGetAirQuality cfg h sqrtF st t0
      (RemoteCall.success smp) lat lng).attemptedRemote = true) :
    (t1 - t0 ≤ cfg.ttl →
      resilientGetAirQuality cfg h sqrtF st1 t1 rc lat2 lng2 =
        ⟨smp, st1, false⟩) ∧
    (cfg.ttl < t1 - t0 → breakerOpen cfg st1 t1 = false →
      (pruneWindow st1 t1).length < cfg.maxPerMinute →
      (resilientGetAirQuality cfg h sqrtF st1 t1 rc lat2 lng2).attemptedRemote
        = true) := by
  apply cache_hit_lemma cfg h sqrtF st1 t0 t1 smp lat2 lng2
    (round4 lat, round4 lng) rc
  · rcases hc : cacheLookup cfg st t0 (round4 lat, round4 lng) with - | s
    · simp only [resilientGetAirQuality, hc] at hatt hst1
      split_ifs at hatt hst1 <;>
        first
          | (exact (Bool.false_ne_true hatt).elim)
          | (exact ⟨st.cache, by rw [hst1]⟩)
    · simp only [resilientGetAirQuality, hc] at hatt
      exact absurd hatt (by simp)
  · rw [hkey1, hkey2]

/-- Witness for C3 at the NYC coordinates, a fresh provider state,
`TTL = 300`, a fetch at `t0 = 0` and a second call at `t1 = 100`. -/
theorem resilient_cache_correct_witness :
    ((100 : ℚ) - 0 ≤ (300 : ℚ) →
      resilientGetAirQuality ⟨300, 3, 60, 10⟩ (fun _ => 0) id
        (resilientGetAirQuality ⟨300, 3, 60, 10⟩ (fun _ => 0) id ⟨[], 0, 0, []⟩ 0
          (RemoteCall.success ⟨"waqi", none, JVal.num 42, JVal.null, [],
            JVal.null, JVal.null⟩) 40.7128 (-74.0060)).state
        100 RemoteCall.failure 40.7128 (-74.0060) =
      ⟨⟨"waqi", none, JVal.num 42, JVal.null, [], JVal.null, JVal.null⟩,
       (resilientGetAirQuality ⟨300, 3, 60, 10⟩ (fun _ => 0) id ⟨[], 0, 0, []⟩ 0
          (RemoteCall.success ⟨"waqi", none, JVal.num 42, JVal.null, [],
            JVal.null, JVal.null⟩) 40.7128 (-74.0060)).state,
       false⟩) ∧
    ((300 : ℚ) < (100 : ℚ) - 0 →
      breakerOpen ⟨300, 3, 60, 10⟩
        (resilientGetAirQuality ⟨300, 3, 60, 10⟩ (fun _ => 0) id ⟨[], 0, 0, []⟩ 0
          (RemoteCall.success ⟨"waqi", none, JVal.num 42, JVal.null, [],
            JVal.null, JVal.null⟩) 40.7128 (-74.0060)).state 100 = false →
      (pruneWindow
        (resilientGetAirQuality ⟨300, 3, 60, 10⟩ (fun _ => 0) id ⟨[], 0, 0, []⟩ 0
          (RemoteCall.success ⟨"waqi", none, JVal.num 42, JVal.null, [],
            JVal.null, JVal.null⟩) 40.7128 (-74.0060)).state 100).length < 10 →
      (resilientGetAirQuality ⟨300, 3, 60, 10⟩ (fun _ => 0) id
        (resilientGetAirQuality ⟨300, 3, 60, 10⟩ (fun _ => 0) id ⟨[], 0, 0, []⟩ 0
          (RemoteCall.success ⟨"waqi", none, JVal.num 42, JVal.null, [],
            JVal.null, JVal.null⟩) 40.7128 (-74.0060)).state
        100 RemoteCall.failure 40.7128 (-74.0060)).attemptedRemote = true) :=
  resilient_cache_correct ⟨300, 3, 60, 10⟩ (fun _ => 0) id ⟨[], 0, 0, []⟩ 0 100
    ⟨"waqi", none, JVal.num 42, JVal.null, [], JVal.null, JVal.null⟩
    40.7128 (-74.0060) 40.7128 (-74.0060) RemoteCall.failure _
    rfl rfl rfl (by decide)

/-- One failing call from a closed-breaker, cache-empty state increments the
failure counter, records the open time exactly when the threshold is
reached, and otherwise preserves cache and bounds the window growth. -/
theorem failure_step (cfg : RConfig) (h : String → ℤ) (sqrtF : ℚ → ℚ)
    (lat lng : ℚ) (t : ℚ) (st : RState)
    (hcache : st.cache = []) (hthr : st.failures < cfg.threshold)
    (hrate : (pruneWindow st t).length < cfg.maxPerMinute) :
    (resilientGetAirQuality cfg h sqrtF st t RemoteCall.failure lat lng).state =
      { cache := st.cache, failures := st.failures + 1,
        openedAt := if st.failures + 1 = cfg.threshold then t else st.openedAt,
        window := pruneWindow st t ++ [t] } := by
  have hcl : cacheLookup cfg st t (round4 lat, round4 lng) = none := by
    unfold cacheLookup
    rw [hcache]
    rfl
  have hbr : breakerOpen cfg st t = false := by
    simp only [breakerOpen, decide_eq_false_iff_not]
    rintro ⟨hth, -⟩
    omega
  simp only [resilientGetAirQuality, hcl, hbr, Bool.false_eq_true, if_false]
  rw [if_neg (by omega : ¬(cfg.threshold ≤ st.failures))]
  rw [if_neg (not_le.mpr hrate)]

/-- After `n` consecutive failing calls starting from a state with
`threshold - n` failures, an empty cache and window room, the failure
counter reaches the threshold and the open time is the instant of the last
failing call. -/
theorem afterFailures_spec (cfg : RConfig) (h : String → ℤ) (sqrtF : ℚ → ℚ)
    (lat lng : ℚ) :
    ∀ (n : ℕ) (t : ℚ) (st : RState), st.cache = [] →
      st.failures + n = cfg.threshold → 1 ≤ n →
      st.window.length + n ≤ cfg.maxPerMinute →
      (afterFailures cfg h sqrtF lat lng n t st).cache = [] ∧
      (afterFailures cfg h sqrtF lat lng n t st).failures = cfg.threshold ∧
      (afterFailures cfg h sqrtF lat lng n t st).openedAt =
        t + ((n - 1 : ℕ) : ℚ) := by
  intro n
  induction n with
  | zero => intro t st _ _ hone _; exact absurd hone (by omega)
  | succ m ih =>
    intro t st hcache hsum hone hwin
    have hplen : (pruneWindow st t).length ≤ st.window.length :=
      List.length_filter_le _ _
    have hstep := failure_step cfg h sqrtF lat lng t st hcache
      (by omega) (by omega)
    cases m with
    | zero =>
      simp only [afterFailures, hstep]
      refine ⟨hcache, by omega, ?_⟩
      rw [if_pos (by omega : st.failures + 1 = cfg.threshold)]
      norm_num
    | succ k =>
      simp only [afterFailures] at ih ⊢
      rw [hstep]
      have hrec := ih (t + 1)
        { cache := st.cache, failures := st.failures + 1,
          openedAt := if st.failures + 1 = cfg.threshold then t else st.openedAt,
          window := pruneWindow st t ++ [t] }
        hcache (by simp; omega) (by omega)
        (by simp only [List.length_append, List.length_cons, List.length_nil]; omega)
      refine ⟨hrec.1, hrec.2.1, ?_⟩
      rw [hrec.2.2]
      have : ((k + 1 - 1 : ℕ) : ℚ) = (k : ℚ) := by norm_num
      rw [this]
      have h2 : ((k + 1 + 1 - 1 : ℕ) : ℚ) = (k : ℚ) + 1 := by push_cast; ring
      rw [h2]
      ring

/-- C4 (spec-modelled): starting from a fresh provider state, `threshold`
consecutive failing remote calls drive the failure counter to the threshold
and record the last failure instant as the open time, so the breaker
reports open at any instant within the cooldown; while the breaker reports
open, a (cache-missing) request attempts no remote call, returns the
estimation-model sample and leaves the state unchanged; and once the
cooldown has elapsed after opening, the next (cache-missing, rate-admitted)
request attempts the remote provider again, with the failure counter reset
on that attempt path (at most 1 afterwards). -/
theorem breaker_transition (cfg : RConfig) (h : String → ℤ) (sqrtF : ℚ → ℚ)
    (lat lng : ℚ) (t : ℚ) (st : RState)
    (hcache : st.cache = []) (hfail : st.failures = 0) (hwin : st.window = [])
    (hthr : 1 ≤ cfg.threshold) (hmax : cfg.threshold ≤ cfg.maxPerMinute) :
    ((afterFailures cfg h sqrtF lat lng cfg.threshold t st).failures =
        cfg.threshold ∧
     (afterFailures cfg h sqrtF lat lng cfg.threshold t st).openedAt =
        t + ((cfg.threshold - 1 : ℕ) : ℚ) ∧
     (∀ now : ℚ, now - (t + ((cfg.threshold - 1 : ℕ) : ℚ)) < cfg.cooldown →
       breakerOpen cfg (afterFailures cfg h sqrtF lat lng cfg.threshold t st)
         now = true)) ∧
    (∀ (st2 : RState) (now : ℚ) (rc : RemoteCall) (la lo : ℚ),
      breakerOpen cfg st2 now = true →
      cacheLookup cfg st2 now (round4 la, round4 lo) = none →
      resilientGetAirQuality cfg h sqrtF st2 now rc la lo =
        ⟨estimateSample h sqrtF la lo, st2, false⟩) ∧
    (∀ (st2 : RState) (now : ℚ) (rc : RemoteCall) (la lo : ℚ),
      cfg.threshold ≤ st2.failures → cfg.cooldown ≤ now - st2.openedAt →
      cacheLookup cfg st2 now (round4 la, round4 lo) = none →
      (pruneWindow st2 now).length < cfg.maxPerMinute →
      (resilientGetAirQuality cfg h sqrtF st2 now rc la lo).attemptedRemote
        = true ∧
      (resilientGetAirQuality cfg h sqrtF st2 now rc la lo).state.failures
        ≤ 1) := by
  obtain ⟨hc, hf, ho⟩ := afterFailures_spec cfg h sqrtF lat lng cfg.threshold t st
    hcache (by omega) hthr (by rw [hwin]; simpa using hmax)
  refine ⟨⟨hf, ho, ?_⟩, ?_, ?_⟩
  · intro now hnow
    simp only [breakerOpen, decide_eq_true_eq]
    constructor
    · omega
    · rw [ho]; linarith
  · intro st2 now rc la lo hopen hmiss
    simp only [resilientGetAirQuality, hmiss, hopen, if_true]
  · intro st2 now rc la lo hthr2 hcool hmiss hrate
    have hbr2 : breakerOpen cfg st2 now = false := by
      simp only [breakerOpen, decide_eq_false_iff_not]
      rintro ⟨-, hlt⟩
      linarith
    simp only [resilientGetAirQuality, hmiss, hbr2, Bool.false_eq_true, if_false]
    rw [if_pos hthr2]
    have hrate2 : ¬(cfg.maxPerMinute ≤ (pruneWindow
        { cache := st2.cache, failures := 0, openedAt := 0,
          window := st2.window } now).length) := not_le.mpr hrate
    rw [if_neg hrate2]
    cases rc <;> exact ⟨rfl, by dsimp only; omega⟩

/-- Witness for C4: `threshold = 2`, `cooldown = 60`, two failing calls at
times 0 and 1 from the fresh state. -/
theorem breaker_transition_witness :
    ((afterFailures ⟨300, 2, 60, 10⟩ (fun _ => 0) id 0 0 2 0
        ⟨[], 0, 0, []⟩).failures = 2 ∧
     (afterFailures ⟨300, 2, 60, 10⟩ (fun _ => 0) id 0 0 2 0
        ⟨[], 0, 0, []⟩).openedAt = 0 + (((2 : ℕ) - 1 : ℕ) : ℚ) ∧
     (∀ now : ℚ, now - (0 + (((2 : ℕ) - 1 : ℕ) : ℚ)) < (60 : ℚ) →
       breakerOpen ⟨300, 2, 60, 10⟩
         (afterFailures ⟨300, 2, 60, 10⟩ (fun _ => 0) id 0 0 2 0 ⟨[], 0, 0, []⟩)
         now = true)) ∧
    (∀ (st2 : RState) (now : ℚ) (rc : RemoteCall) (la lo : ℚ),
      breakerOpen ⟨300, 2, 60, 10⟩ st2 now = true →
      cacheLookup ⟨300, 2, 60, 10⟩ st2 now (round4 la, round4 lo) = none →
      resilientGetAirQuality ⟨300, 2, 60, 10⟩ (fun _ => 0) id st2 now rc la lo =
        ⟨estimateSample (fun _ => 0) id la lo, st2, false⟩) ∧
    (∀ (st2 : RState) (now : ℚ) (rc : RemoteCall) (la lo : ℚ),
      (2 : ℕ) ≤ st2.failures → (60 : ℚ) ≤ now - st2.openedAt →
      cacheLookup ⟨300, 2, 60, 10⟩ st2 now (round4 la, round4 lo) = none →
      (pruneWindow st2 now).length < 10 →
      (resilientGetAirQuality ⟨300, 2, 60, 10⟩ (fun _ => 0) id st2 now rc
        la lo).attemptedRemote = true ∧
      (resilientGetAirQuality ⟨300, 2, 60, 10⟩ (fun _ => 0) id st2 now rc
        la lo).state.failures ≤ 1) :=
  breaker_transition ⟨300, 2, 60, 10⟩ (fun _ => 0) id 0 0 0 ⟨[], 0, 0, []⟩
    rfl rfl rfl (by decide) (by decide)

end Respire
